import Mathlib

/-!
Verification development for the PDF section-redaction service
(`src/main.py`, class `PDFSectionRedactor` and the FastAPI endpoint).

The Python source is shallowly embedded:

* text is `String` / `List Char`; page coordinates are `ℚ` (the source uses
  floats but performs only `+`, `-`, `min`, `max` and comparisons, so exact
  rationals model every computation the claims touch);
* each compiled regular expression of the source is translated into a list of
  alternatives of micro-tokens (`Rtok`), executed by a small nondeterministic
  matcher (`runToks`) that tracks every reachable state, hence implements the
  backtracking semantics of `re` exactly for the token shapes used;
* the stateful scan loops become explicit state-passing recursion.
-/

namespace PdfRedact

/- Core marks the rational operations `@[irreducible]`, which blocks the
elaborator's evaluation of closed rational arithmetic (the kernel never
respects reducibility, so proofs are unaffected); the embedding computes with
page coordinates, so restore the default transparency locally. -/
attribute [local semireducible] Rat.add Rat.sub

/-! ## Python character and string primitives -/

/-- Python `str` whitespace for `\s`, `strip()` (ASCII range, as exercised by
the source's patterns). -/
def isPySpace (c : Char) : Bool :=
  c = ' ' || c = '\t' || c = '\n' || c = '\r' || c = '\x0b' || c = '\x0c'

/-- A regex word character (`\w`): alphanumeric or underscore. -/
def isWordChar (c : Char) : Bool := c.isAlphanum || c = '_'

/-- `str.strip()` on a character list. -/
def trimChars (l : List Char) : List Char :=
  ((l.dropWhile isPySpace).reverse.dropWhile isPySpace).reverse

/-- `str.strip()`. -/
def pyStrip (s : String) : String := ⟨trimChars s.data⟩

/-- `str.lower()` on a character list. -/
def lowerChars (l : List Char) : List Char := l.map Char.toLower

/-- `str.lower()`. -/
def pyLower (s : String) : String := ⟨lowerChars s.data⟩

/-- Substring containment, Python's `needle in hay`. -/
def containsSub (n : List Char) : List Char → Bool
  | [] => n.isPrefixOf []
  | c :: cs => n.isPrefixOf (c :: cs) || containsSub n cs

/-- A cased character (ASCII, as in the source's header texts). -/
def isCased (c : Char) : Bool := c.isUpper || c.isLower

/-- Python `str.isupper()`: at least one cased character and no lowercase one. -/
def pyIsUpper (l : List Char) : Bool :=
  l.any isCased && l.all fun c => !c.isLower

/-- State pass of Python `str.istitle()`: uppercase letters may follow only
uncased characters, lowercase letters only cased ones. -/
def pyIsTitleAux : Bool → List Char → Bool
  | _, [] => true
  | prev, c :: cs =>
    if c.isUpper then !prev && pyIsTitleAux true cs
    else if c.isLower then prev && pyIsTitleAux true cs
    else pyIsTitleAux false cs

/-- Python `str.istitle()`. -/
def pyIsTitle (l : List Char) : Bool :=
  l.any isCased && pyIsTitleAux false l

/-- Python `text.endswith(".")`. -/
def endsWithDot (s : String) : Bool := s.data.getLast? = some '.'


/-! ## A tiny regex engine

Each compiled pattern of the source is rendered as a list of alternatives; an
alternative is a token list.  `runToks` pushes a set of machine states (the
previous character, for `\b`, and the remaining text) through the tokens,
keeping every nondeterministic branch, so no greedy/backtracking subtlety is
lost.  All matching is case-insensitive (`re.IGNORECASE`), performed by
lowering both sides in `lit1`. -/

inductive Rtok where
  /-- one literal character (case-insensitive) -/
  | lit1   (c : Char)
  /-- `X*` for a single-character class `X` -/
  | many0  (f : Char → Bool)
  /-- `X+` for a single-character class `X` (`\s+`, `\d+`) -/
  | many1  (f : Char → Bool)
  /-- `X?` for a single-character class `X` (`s?`, `[-\s]?`) -/
  | optCls (f : Char → Bool)
  /-- one character of a class (`[=:]`) -/
  | cls1   (f : Char → Bool)
  /-- `.*?` (any characters except newline; laziness is irrelevant because all
  branches are kept) -/
  | anyStar
  /-- `\b` -/
  | wb
  /-- `$` (the block texts are single-line, so `$` is end-of-string) -/
  | eol

/-- A matcher state: the previously consumed character and the rest of the text. -/
abbrev MState := Option Char × List Char

/-- Word-ness of the character on one side of a position (`none` = text edge). -/
def isWordO : Option Char → Bool
  | none => false
  | some c => isWordChar c

/-- All states reachable by consuming zero or more class-`f` characters. -/
def manyStates (f : Char → Bool) : Option Char → List Char → List MState
  | prev, cs =>
    (prev, cs) :: match cs with
      | c :: cs' => if f c then manyStates f (some c) cs' else []
      | [] => []

/-- All states reachable by `.*` (not crossing a newline). -/
def dotStates : Option Char → List Char → List MState
  | prev, cs =>
    (prev, cs) :: match cs with
      | c :: cs' => if c ≠ '\n' then dotStates (some c) cs' else []
      | [] => []

/-- One token's transition on one state. -/
def stepTok : Rtok → MState → List MState
  | .lit1 c, (_, cs) =>
    match cs with
    | [] => []
    | d :: ds => if d.toLower = c.toLower then [(some d, ds)] else []
  | .many0 f, (prev, cs) => manyStates f prev cs
  | .many1 f, (_, cs) =>
    match cs with
    | [] => []
    | d :: ds => if f d then manyStates f (some d) ds else []
  | .optCls f, (prev, cs) =>
    (prev, cs) :: match cs with
      | d :: ds => if f d then [(some d, ds)] else []
      | [] => []
  | .cls1 f, (_, cs) =>
    match cs with
    | [] => []
    | d :: ds => if f d then [(some d, ds)] else []
  | .anyStar, (prev, cs) => dotStates prev cs
  | .wb, (prev, cs) =>
    if isWordO prev ≠ isWordO cs.head? then [(prev, cs)] else []
  | .eol, (prev, cs) => if cs.isEmpty then [(prev, cs)] else []

/-- Run a token list over a set of states. -/
def runToks : List Rtok → List MState → List MState
  | [], sts => sts
  | t :: ts, sts => runToks ts (sts.flatMap (stepTok t))

/-- `re.match`: the token list matches a prefix of `cs`. -/
def matchToks (ts : List Rtok) (cs : List Char) : Bool :=
  !(runToks ts [(none, cs)]).isEmpty

/-- Every start position of `cs` with the character preceding it. -/
def searchPositions : Option Char → List Char → List MState
  | prev, cs =>
    (prev, cs) :: match cs with
      | c :: cs' => searchPositions (some c) cs'
      | [] => []

/-- `re.search`: the token list matches somewhere inside `cs`. -/
def searchToks (ts : List Rtok) (cs : List Char) : Bool :=
  (searchPositions none cs).any fun st => !(runToks ts [st]).isEmpty

/-- A literal string as tokens. -/
def litS (s : String) : List Rtok := s.data.map Rtok.lit1

/-- Words joined by `\s+` (the source writes multi-word headings this way). -/
def wseq : List String → List Rtok
  | [] => []
  | [w] => litS w
  | w :: ws => litS w ++ [Rtok.many1 isPySpace] ++ wseq ws

/-- Alternatives of a `\b(p₁|…|pₙ)\b` group: each phrase literal, word-bounded. -/
def wbGroup (ps : List String) : List (List Rtok) :=
  ps.map fun p => [Rtok.wb] ++ litS p ++ [Rtok.wb]

/-- The class `[-\s]`. -/
def dashSp (c : Char) : Bool := c = '-' || isPySpace c

/-- The class `[=:]`. -/
def eqColon (c : Char) : Bool := c = '=' || c = ':'

/-- The class `[^)]`. -/
def notRpar (c : Char) : Bool := c ≠ ')'

/-- Python's two-argument `min` (first argument on ties), spelled out so the
kernel can evaluate it on rationals. -/
def pyMin (a b : ℚ) : ℚ := if a ≤ b then a else b

/-- Python's two-argument `max` (first argument on ties), spelled out so the
kernel can evaluate it on rationals. -/
def pyMax (a b : ℚ) : ℚ := if b ≤ a then a else b

/-- The previously-consumed character after reading `w` from a state whose
previous character was `p` (the matcher state the literal tokens build). -/
def lastOpt (p : Option Char) (w : List Char) : Option Char :=
  w.foldl (fun _ c => some c) p

/-- The ten ASCII digits (`\d` on the texts at hand). -/
def digitChars : List Char :=
  ['0', '1', '2', '3', '4', '5', '6', '7', '8', '9']

/-! ## Pattern registry (`PDFSectionRedactor.__init__`) -/

/-- `self.target_sections`.  The source writes `"Outpatient Medications"
"Problem List"` with no comma, so Python's implicit literal concatenation
makes the 20th entry the single string `"Outpatient MedicationsProblem List"`. -/
def targetSections : List String :=
  [ "Past History",
    "Past Medical History",
    "Medical History",
    "Overview Note",
    "Family History",
    "History (continued)",
    "Substance & Sexuality History",
    "Past Surgical History",
    "Social History",
    "Psychiatric History",
    "Medication List",
    "Medication List (continued)",
    "Discharge Medication List",
    "Prior to Admission medications",
    "Prior to Admission Medications",
    "Medications Prior to Admission",
    "Pre-Admission Medications",
    "Current Medications",
    "Home Medications",
    "Outpatient MedicationsProblem List",
    "Revision History" ]

/-- A sensitive-content pattern: the regex source text (kept as the match
label, exactly as `contains_sensitive_content` appends it) and its token
alternatives. -/
structure SPat where
  src : String
  alts : List (List Rtok)
deriving Inhabited

/-- `self.sensitive_content_patterns`, in source order. -/
def sensitivePatterns : List SPat :=
  [ ⟨"\\balcohol\\b", wbGroup ["alcohol"]⟩,
    ⟨"\\balcohol abuse\\b", wbGroup ["alcohol abuse"]⟩,
    ⟨"\\balcoholic\\b", wbGroup ["alcoholic"]⟩,
    ⟨"\\balcoholism\\b", wbGroup ["alcoholism"]⟩,
    ⟨"\\balcohol dependence\\b", wbGroup ["alcohol dependence"]⟩,
    ⟨"\\b(depression|depressed|depressive|major depression|clinical depression)\\b",
      wbGroup ["depression", "depressed", "depressive", "major depression",
               "clinical depression"]⟩,
    ⟨"\\b(anxiety|anxious|panic disorder|panic attacks|generalized anxiety)\\b",
      wbGroup ["anxiety", "anxious", "panic disorder", "panic attacks",
               "generalized anxiety"]⟩,
    ⟨"\\b(bipolar|manic|mania|manic episode|mood disorder)\\b",
      wbGroup ["bipolar", "manic", "mania", "manic episode", "mood disorder"]⟩,
    ⟨"\\b(schizophrenia|psychotic|psychosis|hallucination|delusion)\\b",
      wbGroup ["schizophrenia", "psychotic", "psychosis", "hallucination",
               "delusion"]⟩,
    ⟨"\\b(ptsd|post[-\\s]?traumatic stress|trauma|traumatic)\\b",
      [[Rtok.wb] ++ litS "ptsd" ++ [Rtok.wb],
       [Rtok.wb] ++ litS "post" ++ [Rtok.optCls dashSp] ++
         litS "traumatic stress" ++ [Rtok.wb],
       [Rtok.wb] ++ litS "trauma" ++ [Rtok.wb],
       [Rtok.wb] ++ litS "traumatic" ++ [Rtok.wb]]⟩,
    ⟨"\\b(suicidal|suicide|self[-\\s]?harm|suicidal ideation)\\b",
      [[Rtok.wb] ++ litS "suicidal" ++ [Rtok.wb],
       [Rtok.wb] ++ litS "suicide" ++ [Rtok.wb],
       [Rtok.wb] ++ litS "self" ++ [Rtok.optCls dashSp] ++ litS "harm" ++ [Rtok.wb],
       [Rtok.wb] ++ litS "suicidal ideation" ++ [Rtok.wb]]⟩,
    ⟨"\\b(alcohol abuse|alcoholic|alcoholism|alcohol dependence)\\b",
      wbGroup ["alcohol abuse", "alcoholic", "alcoholism", "alcohol dependence"]⟩,
    ⟨"\\b(drug abuse|substance abuse|addiction|dependent on|addicted to)\\b",
      wbGroup ["drug abuse", "substance abuse", "addiction", "dependent on",
               "addicted to"]⟩,
    ⟨"\\b(tobacco use|smoker|smoking|cigarette|pack[-\\s]?years)\\b",
      [[Rtok.wb] ++ litS "tobacco use" ++ [Rtok.wb],
       [Rtok.wb] ++ litS "smoker" ++ [Rtok.wb],
       [Rtok.wb] ++ litS "smoking" ++ [Rtok.wb],
       [Rtok.wb] ++ litS "cigarette" ++ [Rtok.wb],
       [Rtok.wb] ++ litS "pack" ++ [Rtok.optCls dashSp] ++ litS "years" ++ [Rtok.wb]]⟩,
    ⟨"\\b(cocaine|heroin|methamphetamine|opioid|opiate|marijuana|cannabis)\\b",
      wbGroup ["cocaine", "heroin", "methamphetamine", "opioid", "opiate",
               "marijuana", "cannabis"]⟩,
    ⟨"\\b(rehab|rehabilitation|detox|detoxification|withdrawal)\\b",
      wbGroup ["rehab", "rehabilitation", "detox", "detoxification", "withdrawal"]⟩,
    ⟨"\\b(aa|alcoholics anonymous|na|narcotics anonymous)\\b",
      wbGroup ["aa", "alcoholics anonymous", "na", "narcotics anonymous"]⟩,
    ⟨"\\b(hiv|aids|human immunodeficiency virus)\\b",
      wbGroup ["hiv", "aids", "human immunodeficiency virus"]⟩,
    ⟨"\\b(std|sti|sexually transmitted|gonorrhea|chlamydia|syphilis)\\b",
      wbGroup ["std", "sti", "sexually transmitted", "gonorrhea", "chlamydia",
               "syphilis"]⟩,
    ⟨"\\b(herpes|hpv|human papillomavirus|hepatitis b|hepatitis c)\\b",
      wbGroup ["herpes", "hpv", "human papillomavirus", "hepatitis b",
               "hepatitis c"]⟩,
    ⟨"\\b(hepatitis|hep a|hep b|hep c|viral hepatitis)\\b",
      wbGroup ["hepatitis", "hep a", "hep b", "hep c", "viral hepatitis"]⟩,
    ⟨"\\b(domestic violence|domestic abuse|physical abuse|sexual abuse)\\b",
      wbGroup ["domestic violence", "domestic abuse", "physical abuse",
               "sexual abuse"]⟩,
    ⟨"\\b(assault|battered|beaten|abused|violence|violent)\\b",
      wbGroup ["assault", "battered", "beaten", "abused", "violence", "violent"]⟩,
    ⟨"\\b(restraining order|protective order|abuse counseling)\\b",
      wbGroup ["restraining order", "protective order", "abuse counseling"]⟩,
    ⟨"\\b(genetic test|genetic screening|gene test|dna test)\\b",
      wbGroup ["genetic test", "genetic screening", "gene test", "dna test"]⟩,
    ⟨"\\b(brca|genetic mutation|hereditary|familial syndrome)\\b",
      wbGroup ["brca", "genetic mutation", "hereditary", "familial syndrome"]⟩,
    ⟨"\\b(genetic counseling|chromosomal|carrier status)\\b",
      wbGroup ["genetic counseling", "chromosomal", "carrier status"]⟩,
    ⟨"\\b(pregnancy test|pregnant|abortion|miscarriage|stillbirth)\\b",
      wbGroup ["pregnancy test", "pregnant", "abortion", "miscarriage",
               "stillbirth"]⟩,
    ⟨"\\b(contraception|birth control|sexual dysfunction|impotence)\\b",
      wbGroup ["contraception", "birth control", "sexual dysfunction",
               "impotence"]⟩,
    ⟨"\\b(fertility|infertility|ivf|reproductive health)\\b",
      wbGroup ["fertility", "infertility", "ivf", "reproductive health"]⟩,
    ⟨"cigarette pack[-\\s]?years\\s*[=:]\\s*\\d+",
      [litS "cigarette pack" ++ [Rtok.optCls dashSp] ++ litS "years" ++
        [Rtok.many0 isPySpace, Rtok.cls1 eqColon, Rtok.many0 isPySpace,
         Rtok.many1 Char.isDigit]]⟩,
    ⟨"drinks\\s+per\\s+day\\s*[=:]\\s*\\d+",
      [wseq ["drinks", "per", "day"] ++
        [Rtok.many0 isPySpace, Rtok.cls1 eqColon, Rtok.many0 isPySpace,
         Rtok.many1 Char.isDigit]]⟩,
    ⟨"packs\\s+per\\s+day\\s*[=:]\\s*\\d+",
      [wseq ["packs", "per", "day"] ++
        [Rtok.many0 isPySpace, Rtok.cls1 eqColon, Rtok.many0 isPySpace,
         Rtok.many1 Char.isDigit]]⟩,
    ⟨"years\\s+of\\s+(smoking|drinking|drug use)",
      [wseq ["years", "of", "smoking"],
       wseq ["years", "of", "drinking"],
       wseq ["years", "of", "drug use"]]⟩ ]

/-- A section-header pattern of `self.section_patterns`.  `orig name` is the
escaped pattern `^{name}\s*(?:\s+as\s+of\s+\d+/\d+/\d+)?$` (the `\s*\s+` of
the date branch is one or more whitespace, rendered `many1`); `colon name` is
`^{name}\s*:\s*$`; `toks` carries the explicitly written additional regexes as
token alternatives. -/
inductive SecPat where
  | orig  (name : String)
  | colon (name : String)
  | toks  (alts : List (List Rtok))

/-- The token alternatives of `SecPat.orig name`. -/
def origAlts (name : String) : List (List Rtok) :=
  [ litS name ++ [Rtok.many0 isPySpace, Rtok.eol],
    litS name ++ [Rtok.many1 isPySpace] ++ litS "as" ++ [Rtok.many1 isPySpace] ++
      litS "of" ++ [Rtok.many1 isPySpace, Rtok.many1 Char.isDigit, Rtok.lit1 '/',
      Rtok.many1 Char.isDigit, Rtok.lit1 '/', Rtok.many1 Char.isDigit, Rtok.eol] ]

/-- The token alternatives of `SecPat.colon name`. -/
def colonAlts (name : String) : List (List Rtok) :=
  [ litS name ++ [Rtok.many0 isPySpace, Rtok.lit1 ':', Rtok.many0 isPySpace,
    Rtok.eol] ]

/-- `pattern.match(text)` for a section pattern (all are `^…$`-anchored, so a
match is a full-line match). -/
def secPatMatches : SecPat → List Char → Bool
  | .orig n, cs => (origAlts n).any fun ts => matchToks ts cs
  | .colon n, cs => (colonAlts n).any fun ts => matchToks ts cs
  | .toks alts, cs => alts.any fun ts => matchToks ts cs

/-- `X\s*:?\s*$` ending common to the additional patterns. -/
def colonTail : List Rtok :=
  [Rtok.many0 isPySpace, Rtok.optCls (· = ':'), Rtok.many0 isPySpace, Rtok.eol]

/-- `additional_patterns` of the source (appended as `(section_name, pattern)`),
in source order. -/
def additionalSectionPatterns : List (String × SecPat) :=
  [ ("History (continued)", SecPat.toks
      [ litS "history" ++ [Rtok.many0 isPySpace, Rtok.lit1 '(', Rtok.many0 notRpar,
          Rtok.lit1 ')', Rtok.many0 isPySpace, Rtok.eol],
        litS "past" ++ [Rtok.many1 isPySpace] ++ litS "history" ++
          [Rtok.many0 isPySpace, Rtok.lit1 '(', Rtok.many0 notRpar, Rtok.lit1 ')',
           Rtok.many0 isPySpace, Rtok.eol],
        litS "medical" ++ [Rtok.many1 isPySpace] ++ litS "history" ++
          [Rtok.many0 isPySpace, Rtok.lit1 '(', Rtok.many0 notRpar, Rtok.lit1 ')',
           Rtok.many0 isPySpace, Rtok.eol],
        litS "past" ++ [Rtok.many1 isPySpace] ++ litS "medical" ++
          [Rtok.many1 isPySpace] ++ litS "history" ++
          [Rtok.many0 isPySpace, Rtok.lit1 '(', Rtok.many0 notRpar, Rtok.lit1 ')',
           Rtok.many0 isPySpace, Rtok.eol] ]),
    ("Family History", SecPat.toks
      [ litS "family" ++ [Rtok.many1 isPySpace] ++ litS "histor" ++
          [Rtok.optCls (· = 'y'), Rtok.many0 isPySpace, Rtok.eol] ]),
    ("Past Medical History", SecPat.toks
      [ wseq ["past", "medical", "history"] ++ colonTail ]),
    ("Medical History", SecPat.toks
      [ wseq ["medical", "history"] ++ colonTail ]),
    ("Medication List", SecPat.toks
      [ litS "medication" ++ [Rtok.optCls (· = 's'), Rtok.many0 isPySpace] ++
          litS "list" ++ colonTail ]),
    ("Medication List (continued)", SecPat.toks
      [ litS "medication" ++ [Rtok.optCls (· = 's'), Rtok.many0 isPySpace] ++
          litS "list" ++ [Rtok.many0 isPySpace, Rtok.lit1 '(', Rtok.many0 notRpar,
          Rtok.lit1 ')'] ++ colonTail ]),
    ("Discharge Medication List", SecPat.toks
      [ litS "discharge" ++ [Rtok.many1 isPySpace] ++ litS "medication" ++
          [Rtok.optCls (· = 's'), Rtok.many0 isPySpace] ++ litS "list" ++
          colonTail ]),
    ("Prior to Admission medications", SecPat.toks
      [ wseq ["prior", "to", "admission"] ++ [Rtok.many1 isPySpace] ++
          litS "medication" ++ [Rtok.optCls (· = 's')] ++ colonTail ]),
    ("Medications Prior to Admission", SecPat.toks
      [ litS "medication" ++ [Rtok.optCls (· = 's'), Rtok.many1 isPySpace] ++
          wseq ["prior", "to", "admission"] ++ colonTail ]),
    ("Pre-Admission Medications", SecPat.toks
      [ litS "pre" ++ [Rtok.many0 dashSp] ++ litS "admission" ++
          [Rtok.many1 isPySpace] ++ litS "medication" ++ [Rtok.optCls (· = 's')] ++
          colonTail ]),
    ("Current Medications", SecPat.toks
      [ litS "current" ++ [Rtok.many1 isPySpace] ++ litS "medication" ++
          [Rtok.optCls (· = 's')] ++ colonTail ]),
    ("Home Medications", SecPat.toks
      [ litS "home" ++ [Rtok.many1 isPySpace] ++ litS "medication" ++
          [Rtok.optCls (· = 's')] ++ colonTail ]),
    ("Outpatient Medications", SecPat.toks
      [ litS "outpatient" ++ [Rtok.many1 isPySpace] ++ litS "medication" ++
          [Rtok.optCls (· = 's')] ++ colonTail ]),
    ("Medication List", SecPat.toks
      [ litS "med" ++ [Rtok.optCls (· = 's')] ++ colonTail ]),
    ("Medication List", SecPat.toks
      [ litS "medication" ++ [Rtok.many1 isPySpace] ++ litS "history" ++
          colonTail ]),
    ("Discharge Medication List", SecPat.toks
      [ litS "discharge" ++ [Rtok.many1 isPySpace] ++ litS "med" ++
          [Rtok.optCls (· = 's')] ++ colonTail ]),
    ("Problem List", SecPat.toks
      [ wseq ["problem", "list"] ++ colonTail ]),
    ("Revision History", SecPat.toks
      [ wseq ["revision", "history"] ++ colonTail ]) ]

/-- `self.section_patterns`: for each target section its escaped original and
colon patterns, then the additional patterns. -/
def sectionPatterns : List (String × SecPat) :=
  (targetSections.flatMap fun n => [(n, SecPat.orig n), (n, SecPat.colon n)]) ++
    additionalSectionPatterns

/-- The provider-note exclusion regexes inside `is_section_header`
(`re.match`, prefix-anchored, no trailing `\b`). -/
def sectionHeaderProviderExclusion : List (List Rtok) :=
  [ wseq ["ed", "provider", "note"],
    wseq ["emergency", "department", "provider", "note"],
    wseq ["provider", "note"],
    wseq ["physician", "note"],
    wseq ["doctor", "note"],
    wseq ["attending", "note"],
    wseq ["resident", "note"],
    wseq ["nurse", "note"],
    wseq ["nursing", "note"] ]

/-- The `provider_note_patterns` of `is_provider_note` (`re.match`,
prefix-anchored, each ending `\b`). -/
def providerNotePatterns : List (List Rtok) :=
  [ wseq ["ed", "provider", "note"] ++ [Rtok.wb],
    wseq ["emergency", "department", "provider", "note"] ++ [Rtok.wb],
    wseq ["emergency", "dept", "provider", "note"] ++ [Rtok.wb],
    wseq ["er", "provider", "note"] ++ [Rtok.wb],
    wseq ["provider", "note"] ++ [Rtok.wb],
    wseq ["physician", "note"] ++ [Rtok.wb],
    wseq ["doctor", "note"] ++ [Rtok.wb],
    wseq ["attending", "note"] ++ [Rtok.wb],
    wseq ["resident", "note"] ++ [Rtok.wb],
    wseq ["nurse", "note"] ++ [Rtok.wb],
    wseq ["nursing", "note"] ++ [Rtok.wb],
    wseq ["clinical", "note"] ++ [Rtok.wb],
    wseq ["progress", "note"] ++ [Rtok.wb],
    wseq ["consultation", "note"] ++ [Rtok.wb],
    wseq ["ed", "note"] ++ [Rtok.wb],
    wseq ["emergency", "note"] ++ [Rtok.wb] ]

/-- `self.major_section_headers`, in source order (duplicates kept). -/
def majorSectionHeaders : List String :=
  [ "allergies", "immunizations", "implants", "visit list",
    "procedures", "discharge", "vitals",
    "treatment team", "documents", "flowsheets", "physical exam",
    "assessment", "plan", "chief complaint", "hpi", "ros",
    "review of systems", "labs", "radiology", "pathology",
    "orders", "notes",
    "diagnostic results", "imaging", "consultation", "discharge summary",
    "coding summary", "visit information", "appointment information",
    "hospital account", "account information", "admission information",
    "ed provider note", "provider note", "physician note", "doctor note",
    "attending note", "resident note", "nurse note", "nursing note",
    "ed provider note", "ed provider notes",
    "emergency department provider note", "emergency department provider notes",
    "emergency dept provider note", "emergency dept provider notes",
    "er provider note", "er provider notes",
    "provider note", "provider notes",
    "physician note", "physician notes",
    "doctor note", "doctor notes",
    "attending note", "attending notes",
    "resident note", "resident notes",
    "nurse note", "nurse notes",
    "nursing note", "nursing notes",
    "clinical note", "clinical notes",
    "progress note", "progress notes",
    "consultation note", "consultation notes",
    "ed note", "ed notes",
    "emergency note", "emergency notes",
    "provider documentation", "clinical documentation",
    "stopped in visit", "stopped in", "service date", "chief complaint" ]

/-- `self.medical_procedure_patterns` (each used with `re.search` against the
stripped, lowered text), in source order.  Each entry is a list of token
alternatives. -/
def medicalProcedurePatterns : List (List (List Rtok)) :=
  [ [wseq ["plan", "excision"]],
    [wseq ["plan", "debridement"]],
    [wseq ["plan", "fusion"]],
    [wseq ["plan", "surgery"]],
    [wseq ["plan", "procedure"]],
    [wseq ["plan", "wound"]],
    [wseq ["currently", "in", "surgical", "shoe"]],
    [wseq ["cleanses", "daily"]],
    [litS "applies" ++ [Rtok.many1 isPySpace, Rtok.anyStar] ++ litS "ointment"],
    [litS "applies" ++ [Rtok.many1 isPySpace, Rtok.anyStar] ++ litS "abx"],
    [litS "dsd" ++ [Rtok.many0 isPySpace, Rtok.eol]],
    [wseq ["excision", "and", "debridement"]],
    [wseq ["surgical", "shoe"]],
    [wseq ["wound", "care"]],
    [litS "post" ++ [Rtok.many0 isPySpace, Rtok.many0 dashSp] ++ litS "op"],
    [litS "follow" ++ [Rtok.many0 isPySpace, Rtok.many0 dashSp] ++ litS "up"],
    ((["daily", "bid", "tid", "qid", "qhs", "prn"].map fun w =>
      [Rtok.many1 Char.isDigit, Rtok.many0 isPySpace] ++ litS "mg" ++
        [Rtok.many1 isPySpace, Rtok.anyStar] ++ litS w)),
    ((["daily", "twice", "morning", "evening"].map fun w =>
      litS "take" ++ [Rtok.many1 isPySpace, Rtok.many1 Char.isDigit,
        Rtok.anyStar] ++ litS w)),
    ((["tablet", "capsule", "pill"].flatMap fun n =>
      ["daily", "bid", "tid"].map fun w =>
        litS n ++ [Rtok.optCls (· = 's'), Rtok.many1 isPySpace, Rtok.anyStar] ++
          litS w)),
    [litS "dosage" ++ [Rtok.many0 isPySpace, Rtok.lit1 ':']],
    [litS "frequency" ++ [Rtok.many0 isPySpace, Rtok.lit1 ':']],
    [litS "rx" ++ [Rtok.many0 isPySpace, Rtok.lit1 ':']],
    [litS "sig" ++ [Rtok.many0 isPySpace, Rtok.lit1 ':']],
    [litS "disp" ++ [Rtok.many0 isPySpace, Rtok.lit1 ':']],
    [litS "refill" ++ [Rtok.optCls (· = 's'), Rtok.many0 isPySpace, Rtok.lit1 ':']],
    (wbGroup ["lisinopril", "metformin", "atorvastatin", "amlodipine",
      "metoprolol", "omeprazole", "levothyroxine", "gabapentin",
      "hydrochlorothiazide", "sertraline"]) ]

/-- `self.targeted_detection_sections`. -/
def targetedDetectionSections : List String :=
  [ "Past Surgical History",
    "Past History",
    "Past Medical History",
    "Medical History",
    "Medication List",
    "Medication List (continued)",
    "Discharge Medication List",
    "Prior to Admission medications",
    "Current Medications",
    "Home Medications" ]

/-- `self.detection_range` (points). -/
def detectionRange : ℚ := 100

/-- `admin_indicators` of `is_administrative_context`. -/
def adminIndicators : List String :=
  [ "visit information", "appointment information",
    "hospital account", "account information",
    "billing", "insurance", "provider information",
    "referral provider", "admission information",
    "patient information", "demographics" ]

/-- `context_window` of `is_administrative_context` (points). -/
def contextWindow : ℚ := 150

/-! ## Data model -/

/-- One text span as `extract_text_blocks_with_coordinates` records it:
text, bounding box `(x0, y0, x1, y1)`, font size and style flags. -/
structure Block where
  text : String
  x0 : ℚ
  y0 : ℚ
  x1 : ℚ
  y1 : ℚ
  size : ℚ
  flags : ℤ
deriving DecidableEq

/-- One page: the raw spans in extraction order (`page.get_text("dict")`
spans, pre-sort) and the page rectangle. -/
structure Page where
  rawBlocks : List Block
  width : ℚ
  height : ℚ
deriving DecidableEq

/-- A document: its pages in order. -/
structure Doc where
  pages : List Page
deriving DecidableEq

/-- Ordering of blocks by top-y, the key of `blocks.sort(key=bbox[1])`. -/
def blockLE (a b : Block) : Prop := a.y0 ≤ b.y0

instance : DecidableRel blockLE := fun a b => inferInstanceAs (Decidable (a.y0 ≤ b.y0))

instance : IsTotal Block blockLE := ⟨fun a b => le_total a.y0 b.y0⟩

instance : IsTrans Block blockLE := ⟨fun _ _ _ => le_trans⟩

/-- `extract_text_blocks_with_coordinates`: strip each span's text, keep the
non-empty ones, sort ascending by `bbox[1]` (Python's sort is stable;
insertion sort is the classic stable sort). -/
def extractTextBlocks (p : Page) : List Block :=
  List.insertionSort blockLE
    (p.rawBlocks.filterMap fun b =>
      let t := pyStrip b.text
      if t = "" then none else some { b with text := t })

/-! ## Sensitive-content scanner -/

/-- The inner loop of `is_administrative_context`: some administrative
indicator phrase occurs in the block's stripped, lowered text. -/
def containsAdminIndicator (t : String) : Bool :=
  adminIndicators.any fun ind =>
    containsSub ind.data (lowerChars (trimChars t.data))

/-- `is_administrative_context(page, text_y_position)`. -/
def isAdministrativeContext (p : Page) (y : ℚ) : Bool :=
  (extractTextBlocks p).any fun b =>
    decide (y - contextWindow ≤ b.y0) && decide (b.y0 < y) &&
      containsAdminIndicator b.text

/-- Labels of every sensitive pattern that fires on an (already stripped)
text. -/
def matchedSensitiveLabels (s : String) : List String :=
  sensitivePatterns.filterMap fun p =>
    if p.alts.any fun ts => searchToks ts s.data then some p.src else none

/-- `contains_sensitive_content(text)`: `(has_sensitive, matched_patterns)`. -/
def containsSensitiveContent (text : String) : Bool × List String :=
  if (trimChars text.data).length < 3 then (false, [])
  else
    let m := matchedSensitiveLabels (pyStrip text)
    (!m.isEmpty, m)

/-- One record of `find_sensitive_content_blocks`' result list. -/
structure SensitiveBlock where
  page : ℕ
  block : Block
  patterns : List String
deriving DecidableEq

/-- The sensitive candidates of one page (`find_sensitive_content_blocks`'
inner loop). -/
def sensPage (i : ℕ) (pg : Page) : List SensitiveBlock :=
  (extractTextBlocks pg).filterMap fun b =>
    if (containsSensitiveContent b.text).1 && !isAdministrativeContext pg b.y0
    then some ⟨i, b, (containsSensitiveContent b.text).2⟩ else none

/-- Page loop of `find_sensitive_content_blocks`. -/
def findSensAux : ℕ → List Page → List SensitiveBlock
  | _, [] => []
  | i, pg :: rest => sensPage i pg ++ findSensAux (i + 1) rest

/-- `find_sensitive_content_blocks(pdf_doc)`. -/
def findSensitiveContentBlocks (d : Doc) : List SensitiveBlock :=
  findSensAux 0 d.pages

/-! ## Section-header, boundary and procedure predicates -/

/-- The `page and y_position and is_administrative_context(...)` guard of
`is_section_header`, with Python truthiness: skipped when `page` is `None` or
`y_position` is `None`/`0.0`. -/
def adminGuard : Option Page → Option ℚ → Bool
  | some pg, some yy => decide (yy ≠ 0) && isAdministrativeContext pg yy
  | _, _ => false

/-- `is_section_header(text, font_size, flags, page, y_position)`. -/
def isSectionHeader (text : String) (size : ℚ) (flags : ℤ) (page : Option Page)
    (y : Option ℚ) : Bool × Option String :=
  if pyStrip text = "" || (pyStrip text).length < 4 then (false, none)
  else if sectionHeaderProviderExclusion.any fun ts =>
      matchToks ts (pyStrip text).data then (false, none)
  else if adminGuard page y then (false, none)
  else
    match sectionPatterns.find? fun np =>
        secPatMatches np.2 (pyStrip text).data with
    | some (n, _) => (true, some n)
    | none => (false, none)

/-- `is_provider_note(text)`. -/
def isProviderNote (text : String) : Bool :=
  let t := pyStrip text
  if t = "" then false
  else providerNotePatterns.any fun ts => matchToks ts t.data

/-- `is_medical_procedure_content(text)`. -/
def isMedicalProcedureContent (text : String) : Bool :=
  medicalProcedurePatterns.any fun alts =>
    alts.any fun ts => searchToks ts (lowerChars (trimChars text.data))

/-- `is_major_section_boundary(text, block)` (uses the block's font size). -/
def isMajorSectionBoundary (text : String) (size : ℚ) : Bool :=
  if isProviderNote text then true
  else
    majorSectionHeaders.any fun sec =>
      sec.data.isPrefixOf (lowerChars (trimChars text.data)) &&
        (decide (text.length < 100) && !endsWithDot text &&
          (pyIsUpper text.data || pyIsTitle text.data || decide ((10 : ℚ) ≤ size)))

/-! ## Targeted range extender -/

/-- `find_targeted_content_in_range(page, start_y, end_y)`. -/
def findTargetedContentInRange (pg : Page) (startY endY : ℚ) : List Block :=
  (extractTextBlocks pg).filter fun b =>
    decide (startY ≤ b.y0) && decide (b.y0 ≤ endY) &&
      isMedicalProcedureContent b.text

/-- Python's `max` over a non-empty list, seeded with a first element. -/
def listMaxQ (x : ℚ) (l : List ℚ) : ℚ := l.foldl pyMax x

/-- `apply_targeted_detection(section_name, start_page, start_y, end_page,
original_end_y, pdf_doc)`.  The source indexes `pdf_doc[end_page]` directly;
the scan only ever passes a valid index, and an out-of-range index is mapped
to the no-extension result. -/
def applyTargetedDetection (sectionName : String) (startPage : ℕ) (startY : ℚ)
    (endPage : ℕ) (originalEndY : ℚ) (d : Doc) : ℚ :=
  if !(targetedDetectionSections.contains sectionName) then originalEndY
  else
    match d.pages.get? endPage with
    | none => originalEndY
    | some pg =>
      match findTargetedContentInRange pg originalEndY
          (pyMin (originalEndY + detectionRange) pg.height) with
      | [] => originalEndY
      | c :: cs =>
        if (extractTextBlocks pg).any fun b2 =>
            decide (originalEndY < b2.y0) &&
              decide (b2.y0 < listMaxQ c.y1 (cs.map (·.y1)) + 10) &&
              isMajorSectionBoundary b2.text b2.size
        then originalEndY
        else listMaxQ c.y1 (cs.map (·.y1)) + 5

/-! ## Section boundary scanner -/

/-- A closed section span, one record of
`find_global_section_boundaries_with_targeted_detection`'s result. -/
structure SectionSpan where
  name : String
  startPage : ℕ
  startY : ℚ
  endPage : ℕ
  endY : ℚ
  originalEndY : ℚ
deriving DecidableEq

/-- Scanner state: emitted spans plus the open section
`(current_section, section_start_page, section_start_y)`. -/
structure ScanState where
  sections : List SectionSpan
  current : Option (String × ℕ × ℚ)
deriving DecidableEq

/-- Processing of one block inside the scan loop, in the source's precedence
order: provider note (closes with `min(extended_end_y, bbox[1])`), then
section header (closes any open section with the extended end and opens a new
one), then stop boundary (closes with the extended end), else no change. -/
def scanBlock (d : Doc) (pageNum : ℕ) (pg : Page) (st : ScanState) (b : Block) :
    ScanState :=
  match st.current with
  | some (name, sp, sy) =>
    if isProviderNote b.text then
      { sections := st.sections ++
          [⟨name, sp, sy, pageNum,
            pyMin (applyTargetedDetection name sp sy pageNum b.y0 d) b.y0, b.y0⟩],
        current := none }
    else
      match isSectionHeader b.text b.size b.flags (some pg) (some b.y0) with
      | (true, sn) =>
        { sections := st.sections ++
            [⟨name, sp, sy, pageNum,
              applyTargetedDetection name sp sy pageNum b.y0 d, b.y0⟩],
          current := some (sn.getD "", pageNum, b.y0) }
      | (false, _) =>
        if isMajorSectionBoundary b.text b.size then
          { sections := st.sections ++
              [⟨name, sp, sy, pageNum,
                applyTargetedDetection name sp sy pageNum b.y0 d, b.y0⟩],
            current := none }
        else st
  | none =>
    match isSectionHeader b.text b.size b.flags (some pg) (some b.y0) with
    | (true, sn) => { sections := st.sections, current := some (sn.getD "", pageNum, b.y0) }
    | (false, _) => st

/-- The block loop of one page. -/
def scanPageBlocks (d : Doc) (i : ℕ) (pg : Page) : ScanState → List Block → ScanState
  | st, [] => st
  | st, b :: bs => scanPageBlocks d i pg (scanBlock d i pg st b) bs

/-- The page loop (`for page_num in range(pdf_doc.page_count)`). -/
def scanPages (d : Doc) : ℕ → List Page → ScanState → ScanState
  | _, [], st => st
  | i, pg :: rest, st =>
    scanPages d (i + 1) rest (scanPageBlocks d i pg st (extractTextBlocks pg))

/-- `find_global_section_boundaries_with_targeted_detection(pdf_doc)`:
the scan plus the trailing close at the bottom of the final page. -/
def findGlobalSectionBoundaries (d : Doc) : List SectionSpan :=
  let st := scanPages d 0 d.pages ⟨[], none⟩
  match st.current, d.pages.getLast? with
  | some (name, sp, sy), some lastPg =>
    st.sections ++
      [⟨name, sp, sy, d.pages.length - 1,
        applyTargetedDetection name sp sy (d.pages.length - 1) lastPg.height d,
        lastPg.height⟩]
  | _, _ => st.sections

/-! ## Redaction geometry -/

/-- One redaction rectangle, page-indexed. -/
structure RRect where
  page : ℕ
  x0 : ℚ
  y0 : ℚ
  x1 : ℚ
  y1 : ℚ
deriving DecidableEq

/-- `apply_redaction_to_pages`: the rectangle painted on each page of a span
(`fitz.Rect(0, start_y, w, end_y)` on a single-page span, and the
first/interior/last shapes of a multi-page one).  The source indexes pages
directly; out-of-range pages yield no rectangle. -/
def sectionRects (d : Doc) (s : SectionSpan) : List RRect :=
  (List.range' s.startPage (s.endPage + 1 - s.startPage)).filterMap fun p =>
    match d.pages.get? p with
    | none => none
    | some pg =>
      if p = s.startPage ∧ p = s.endPage then some ⟨p, 0, s.startY, pg.width, s.endY⟩
      else if p = s.startPage then some ⟨p, 0, s.startY, pg.width, pg.height⟩
      else if p = s.endPage then some ⟨p, 0, 0, pg.width, s.endY⟩
      else some ⟨p, 0, 0, pg.width, pg.height⟩

/-- Positive-area overlap of a rectangle and a block's bbox. -/
def rectOverlapsBlock (r : RRect) (b : Block) : Bool :=
  decide (pyMax r.x0 b.x0 < pyMin r.x1 b.x1) &&
    decide (pyMax r.y0 b.y0 < pyMin r.y1 b.y1)

/-- Modelled from the spec: the external Redaction Applicator
(`AddRedaction`/`Commit` of §6, realized by PyMuPDF's
`add_redact_annot`/`apply_redactions` in the source) permanently commits an
opaque rectangle; the text it covers is removed from the document, so a later
block extraction no longer sees spans whose boxes the rectangle overlaps. -/
def applyRectsToDoc (d : Doc) (rects : List RRect) : Doc :=
  ⟨(d.pages.enum).map fun pi =>
    { pi.2 with rawBlocks := pi.2.rawBlocks.filter fun b =>
        !(rects.any fun r => r.page = pi.1 && rectOverlapsBlock r b) }⟩

/-- All rectangles of the section pass. -/
def sectionPassRects (d : Doc) : List RRect :=
  (findGlobalSectionBoundaries d).flatMap (sectionRects d)

/-- The sensitive scan as `redact_pdf` actually runs it: after the section
redactions have been committed into the shared document. -/
def pipelineSensitiveBlocks (d : Doc) : List SensitiveBlock :=
  findSensitiveContentBlocks (applyRectsToDoc d (sectionPassRects d))

/-! ## Service endpoint (`POST /redact-pdf`) -/

/-- An upload as the endpoint sees it.  `parses` is modelled from the spec:
whether the external document engine can open and process the payload
(§7 `DocumentParseFailure`; an empty byte string cannot be opened). -/
structure UploadReq where
  filename : String
  contentType : String
  sizeBytes : ℕ
  parses : Bool
deriving DecidableEq

/-- What a request produced: the HTTP status, whether the body was read, and
whether scanning ran. -/
structure EndpointResult where
  status : ℕ
  bodyRead : Bool
  scanned : Bool
deriving DecidableEq

/-- Python `s.lower().endswith(".pdf")`. -/
def endsWithPdf (s : String) : Bool :=
  ".pdf".data.isSuffixOf (lowerChars s.data)

/-- The `redact_pdf` endpoint: the only validation is
`file.filename.lower().endswith(".pdf")`, checked before `file.read()`;
a processing failure raises `HTTPException(500)`. -/
def redactPdfEndpoint (r : UploadReq) : EndpointResult :=
  if !(endsWithPdf r.filename) then ⟨400, false, false⟩
  else if r.parses then ⟨200, true, true⟩
  else ⟨500, true, false⟩

/-! ## Wellformedness of a document -/

/-- Geometric sanity of the extracted spans: boxes have non-negative top,
top at most bottom, and lie within their page. -/
def WFDoc (d : Doc) : Prop :=
  ∀ pg ∈ d.pages, ∀ b ∈ pg.rawBlocks,
    0 ≤ b.y0 ∧ b.y0 ≤ b.y1 ∧ b.y1 ≤ pg.height

instance (d : Doc) : Decidable (WFDoc d) := by
  unfold WFDoc; infer_instance

/-- The shape invariant of an emitted span (claim C7, plus the bound on the
closing page index). -/
def GoodSpan (d : Doc) (s : SectionSpan) : Prop :=
  s.originalEndY ≤ s.endY ∧ s.startPage ≤ s.endPage ∧
    (s.startPage = s.endPage → s.startY ≤ s.originalEndY) ∧
    s.endPage < d.pages.length

/-- Invariant on the open-section register while page `i` still has `rest`
of its (sorted) blocks to process: the section opened on an earlier or the
current page, its start y lies within its page, and on the current page no
remaining block sits above it. -/
def CurOK (d : Doc) (i : ℕ) (rest : List Block) (st : ScanState) : Prop :=
  ∀ n sp sy, st.current = some (n, sp, sy) →
    sp ≤ i ∧ (∃ pgs, d.pages.get? sp = some pgs ∧ sy ≤ pgs.height) ∧
      (sp = i → ∀ b ∈ rest, sy ≤ b.y0)

/-! ## Concrete documents used by the counterexamples and witnesses -/

/-- A US-letter page frame without blocks. -/
def mkPage (bs : List Block) : Page := ⟨bs, 612, 792⟩

/-- A default-styled block. -/
def mkBlock (t : String) (y0 y1 : ℚ) : Block := ⟨t, 50, y0, 400, y1, 11, 4⟩

/-- Claim C1: a "Past Medical History" section followed by an
"ED Provider Note" block. -/
def docProviderClose : Doc :=
  ⟨[mkPage [mkBlock "Past Medical History" 100 110,
            mkBlock "ED Provider Note" 200 210]]⟩

/-- Claim C2, variant A: a header candidate sitting 100pt below a "Billing"
block. -/
def docAdminHeader : Doc :=
  ⟨[mkPage [mkBlock "Billing" 100 110,
            mkBlock "Past Medical History" 200 210]]⟩

/-- Claim C2, variant B: the identical header candidate with no
administrative block above it. -/
def docPlainHeader : Doc :=
  ⟨[mkPage [mkBlock "Past Medical History" 200 210]]⟩

/-- Claim C3: a "Past Medical History" section whose body holds sensitive
text, closed by an "Allergies" stop boundary. -/
def docSectionWithSensitive : Doc :=
  ⟨[mkPage [mkBlock "Past Medical History" 100 110,
            mkBlock "History of alcohol abuse noted" 200 210,
            mkBlock "Allergies" 300 310]]⟩

/-- Claim C4: a "Past Surgical History" section closed by "Allergies" at
y = 700; procedural content reaches y = 791 on a 792pt page. -/
def docExtendPastBottom : Doc :=
  ⟨[mkPage [mkBlock "Past Surgical History" 100 110,
            mkBlock "Allergies" 700 710,
            mkBlock "wound care" 780 791]]⟩

/-- Claim C5 witness: a page holding procedural content at y ∈ [310, 330]
(font size 9, so the block does not itself qualify as a stop boundary via the
`"plan"` prefix). -/
def pageProcedural : Page :=
  mkPage [⟨"plan debridement and wound care", 50, 310, 400, 330, 9, 4⟩]

/-- Claim C5 witness document. -/
def docProcedural : Doc := ⟨[pageProcedural]⟩

/-- Claim C6, scenario 4A: sensitive text 100pt below "Visit Information". -/
def docSensitiveUnderAdmin : Doc :=
  ⟨[mkPage [mkBlock "Visit Information" 100 112,
            mkBlock "Patient has a history of alcohol abuse" 200 212]]⟩

/-- Claim C6, scenario 4B: the identical sensitive text with no
administrative heading. -/
def docSensitiveAlone : Doc :=
  ⟨[mkPage [mkBlock "Patient has a history of alcohol abuse" 200 212]]⟩

/-- A document with no redactable section ("hello world" only). -/
def docNoSections : Doc :=
  ⟨[mkPage [mkBlock "hello world" 100 110]]⟩

/-! ## Helper lemmas -/

theorem pyMin_le_right (a b : ℚ) : pyMin a b ≤ b := by
  unfold pyMin
  split
  · assumption
  · exact le_refl b

theorem pyMin_le_left (a b : ℚ) : pyMin a b ≤ a := by
  unfold pyMin
  split
  · exact le_refl a
  · linarith [lt_of_not_le (by assumption : ¬ a ≤ b)]

theorem le_pyMax_left (a b : ℚ) : a ≤ pyMax a b := by
  unfold pyMax
  split
  · exact le_refl a
  · linarith [lt_of_not_le (by assumption : ¬ b ≤ a)]

theorem pyMax_le {M a b : ℚ} (ha : a ≤ M) (hb : b ≤ M) : pyMax a b ≤ M := by
  unfold pyMax
  split
  · exact ha
  · exact hb

theorem le_pyMin {a b c : ℚ} (ha : c ≤ a) (hb : c ≤ b) : c ≤ pyMin a b := by
  unfold pyMin
  split
  · exact ha
  · exact hb

theorem le_listMaxQ (x : ℚ) (l : List ℚ) : x ≤ listMaxQ x l := by
  induction l generalizing x with
  | nil => exact le_refl x
  | cons a l ih =>
    exact le_trans (le_pyMax_left x a) (ih (pyMax x a))

theorem listMaxQ_le {M x : ℚ} {l : List ℚ} (hx : x ≤ M) (hl : ∀ y ∈ l, y ≤ M) :
    listMaxQ x l ≤ M := by
  induction l generalizing x with
  | nil => exact hx
  | cons a l ih =>
    exact ih (pyMax_le hx (hl a (List.mem_cons_self a l)))
      fun y hy => hl y (List.mem_cons_of_mem a hy)

theorem mem_extract {pg : Page} {b : Block} (hb : b ∈ extractTextBlocks pg) :
    ∃ b0 ∈ pg.rawBlocks, b.y0 = b0.y0 ∧ b.y1 = b0.y1 := by
  unfold extractTextBlocks at hb
  rw [(List.perm_insertionSort blockLE _).mem_iff, List.mem_filterMap] at hb
  obtain ⟨b0, h0, hsome⟩ := hb
  by_cases he : pyStrip b0.text = ""
  · simp [he] at hsome
  · simp only [he, if_false] at hsome
    injection hsome with h
    exact ⟨b0, h0, by rw [← h], by rw [← h]⟩

theorem wf_extract {d : Doc} {pg : Page} {b : Block} (hwf : WFDoc d)
    (hpg : pg ∈ d.pages) (hb : b ∈ extractTextBlocks pg) :
    0 ≤ b.y0 ∧ b.y0 ≤ b.y1 ∧ b.y1 ≤ pg.height := by
  obtain ⟨b0, h0, hy0, hy1⟩ := mem_extract hb
  rw [hy0, hy1]
  exact hwf pg hpg b0 h0

/-- The extension only moves the boundary later, never earlier. -/
theorem extension_ge {d : Doc} (hwf : WFDoc d) (n : String) (sp : ℕ) (sy : ℚ)
    (ep : ℕ) (oy : ℚ) : oy ≤ applyTargetedDetection n sp sy ep oy d := by
  unfold applyTargetedDetection
  split
  · exact le_refl oy
  · split
    · exact le_refl oy
    · rename_i pg hpg
      split
      · exact le_refl oy
      · rename_i c cs hfound
        split
        · exact le_refl oy
        · have hc : c ∈ findTargetedContentInRange pg oy
              (pyMin (oy + detectionRange) pg.height) := by
            rw [hfound]; exact List.mem_cons_self c cs
          rw [findTargetedContentInRange, List.mem_filter] at hc
          obtain ⟨hcx, hcond⟩ := hc
          have h1 : oy ≤ c.y0 := by
            simp only [Bool.and_eq_true, decide_eq_true_eq] at hcond
            exact hcond.1.1
          have h2 : c.y0 ≤ c.y1 :=
            (wf_extract hwf (List.get?_mem hpg) hcx).2.1
          have h3 : c.y1 ≤ listMaxQ c.y1 (cs.map (·.y1)) := le_listMaxQ _ _
          linarith

/-! ## Claim theorems -/

/-- C9 counterexample: the endpoint does not behave as the claim states.  An
empty upload with a `.pdf` filename surfaces as 500 (not 400); an oversized
upload (> 50MB) is processed with 200 (never 413); a `.pdf`-named upload with
a non-PDF content type is processed rather than rejected with 400. -/
theorem c9_endpoint_counterexample :
    redactPdfEndpoint ⟨"report.pdf", "application/pdf", 0, false⟩ =
      ⟨500, true, false⟩ ∧
    (500 : ℕ) ≠ 400 ∧
    redactPdfEndpoint ⟨"big.pdf", "application/pdf", 52428801, true⟩ =
      ⟨200, true, true⟩ ∧
    (200 : ℕ) ≠ 413 ∧
    redactPdfEndpoint ⟨"payload.pdf", "text/plain", 10, true⟩ = ⟨200, true, true⟩ := by
  refine ⟨by decide, by decide, by decide, by decide, by decide⟩

/-- C9 (amended): `POST /redact-pdf` rejects only on the filename: a filename
not ending in `.pdf` (case-insensitively) yields 400 before the body is read
and with no scanning; with a `.pdf` filename an unparseable (e.g. empty) body
surfaces as 500, any size and content type are accepted, and 413 is never
returned. -/
theorem c9_endpoint_behavior :
    (∀ r : UploadReq, endsWithPdf r.filename = false →
       redactPdfEndpoint r = ⟨400, false, false⟩) ∧
    (∀ r : UploadReq, endsWithPdf r.filename = true →
       r.parses = false → redactPdfEndpoint r = ⟨500, true, false⟩) ∧
    (∀ r : UploadReq, (redactPdfEndpoint r).status ≠ 413) ∧
    (∀ (r : UploadReq) (ct : String) (n : ℕ),
       redactPdfEndpoint { r with contentType := ct, sizeBytes := n } =
         redactPdfEndpoint r) := by
  refine ⟨?_, ?_, ?_, ?_⟩
  · intro r h; simp [redactPdfEndpoint, h]
  · intro r h hp; simp [redactPdfEndpoint, h, hp]
  · intro r
    unfold redactPdfEndpoint
    split
    · decide
    · split <;> decide
  · intro r ct n; rfl

/-- C10: uploads whose lowered filename does not end in `.pdf` get 400 with
the body unread and nothing scanned; uploads whose filename ends in `.pdf`
always have their body read (and proceed to document parsing); the content
type is never inspected. -/
theorem c10_filename_gate :
    (∀ r : UploadReq, endsWithPdf r.filename = false →
       redactPdfEndpoint r = ⟨400, false, false⟩) ∧
    (∀ r : UploadReq, endsWithPdf r.filename = true →
       (redactPdfEndpoint r).bodyRead = true) ∧
    (∀ (r : UploadReq) (ct : String),
       redactPdfEndpoint { r with contentType := ct } = redactPdfEndpoint r) := by
  refine ⟨?_, ?_, ?_⟩
  · intro r h; simp [redactPdfEndpoint, h]
  · intro r h
    unfold redactPdfEndpoint
    rw [if_neg (by simp [h])]
    split <;> rfl
  · intro r ct; rfl

/-- C1 counterexample: in `docProviderClose` the "Past Medical History"
section is closed by the "ED Provider Note" block (top-y 200) with
`endY = 200` — at the note's top-y, not strictly before it, because the close
uses `min(extended_end_y, bbox[1])` and the extension never returns less than
`bbox[1]`. -/
theorem c1_provider_close_counterexample :
    isProviderNote "ED Provider Note" = true ∧
    findGlobalSectionBoundaries docProviderClose =
      [⟨"Past Medical History", 0, 100, 0, 200, 200⟩] ∧
    ¬ (∀ s ∈ findGlobalSectionBoundaries docProviderClose, s.endY < 200) := by
  refine ⟨by decide, by decide, ?_⟩
  intro h
  have := h ⟨"Past Medical History", 0, 100, 0, 200, 200⟩ (by decide)
  exact absurd this (by decide)

/-- C1 (amended): a ProviderNoteOverride block closes any open section with
`endY = min(extendedEndY, note.y0)` — at or before the note's top-y, never
strictly after it — and every rectangle of the closed span on the note's page
ends at or above the note's top-y, so the note's own text region below its
top-y is never covered by that span. -/
theorem c1_provider_close_amended (d : Doc) (pageNum : ℕ) (pg : Page)
    (st : ScanState) (b : Block) (n : String) (sp : ℕ) (sy : ℚ)
    (hcur : st.current = some (n, sp, sy)) (hpn : isProviderNote b.text = true) :
    (scanBlock d pageNum pg st b).sections = st.sections ++
      [⟨n, sp, sy, pageNum,
        pyMin (applyTargetedDetection n sp sy pageNum b.y0 d) b.y0, b.y0⟩] ∧
    (scanBlock d pageNum pg st b).current = none ∧
    pyMin (applyTargetedDetection n sp sy pageNum b.y0 d) b.y0 ≤ b.y0 ∧
    (∀ r ∈ sectionRects d
        ⟨n, sp, sy, pageNum,
          pyMin (applyTargetedDetection n sp sy pageNum b.y0 d) b.y0, b.y0⟩,
      r.page = pageNum → r.y1 ≤ b.y0) := by
  refine ⟨by unfold scanBlock; rw [hcur, hpn]; rfl,
    by unfold scanBlock; rw [hcur, hpn]; rfl, pyMin_le_right _ _, ?_⟩
  intro r hr hrp
  unfold sectionRects at hr
  rw [List.mem_filterMap] at hr
  obtain ⟨p, hpmem, hsome⟩ := hr
  rcases hget : d.pages.get? p with _ | pg2 <;> rw [hget] at hsome
  · exact absurd hsome (by simp)
  · simp only at hsome
    split at hsome
    · injection hsome with h
      rw [← h]
      exact pyMin_le_right _ _
    · split at hsome
      · rename_i hno hsp
        injection hsome with h
        rw [← h] at hrp
        simp only at hrp
        exact absurd ⟨hsp, hrp⟩ hno
      · split at hsome
        · injection hsome with h
          rw [← h]
          exact pyMin_le_right _ _
        · rename_i hno hnsp hnend
          injection hsome with h
          rw [← h] at hrp
          simp only at hrp
          exact absurd hrp hnend

/-- C1 amended, witness: the provider-note close of `docProviderClose`,
with the hypotheses discharged at that concrete input. -/
theorem c1_provider_close_amended_witness :
    (({ sections := [], current := some ("Past Medical History", 0, 100) } :
        ScanState).current = some ("Past Medical History", 0, 100) ∧
      isProviderNote "ED Provider Note" = true) ∧
    ((scanBlock docProviderClose 0
        (mkPage [mkBlock "Past Medical History" 100 110,
                 mkBlock "ED Provider Note" 200 210])
        { sections := [], current := some ("Past Medical History", 0, 100) }
        (mkBlock "ED Provider Note" 200 210)).sections =
      [] ++
      [⟨"Past Medical History", 0, 100, 0,
        pyMin (applyTargetedDetection "Past Medical History" 0 100 0
          (mkBlock "ED Provider Note" 200 210).y0 docProviderClose)
          (mkBlock "ED Provider Note" 200 210).y0,
        (mkBlock "ED Provider Note" 200 210).y0⟩] ∧
     (scanBlock docProviderClose 0
        (mkPage [mkBlock "Past Medical History" 100 110,
                 mkBlock "ED Provider Note" 200 210])
        { sections := [], current := some ("Past Medical History", 0, 100) }
        (mkBlock "ED Provider Note" 200 210)).current = none ∧
     pyMin (applyTargetedDetection "Past Medical History" 0 100 0
        (mkBlock "ED Provider Note" 200 210).y0 docProviderClose)
        (mkBlock "ED Provider Note" 200 210).y0 ≤
        (mkBlock "ED Provider Note" 200 210).y0 ∧
     (∀ r ∈ sectionRects docProviderClose
        ⟨"Past Medical History", 0, 100, 0,
          pyMin (applyTargetedDetection "Past Medical History" 0 100 0
            (mkBlock "ED Provider Note" 200 210).y0 docProviderClose)
            (mkBlock "ED Provider Note" 200 210).y0,
          (mkBlock "ED Provider Note" 200 210).y0⟩,
      r.page = 0 → r.y1 ≤ (mkBlock "ED Provider Note" 200 210).y0)) :=
  ⟨⟨rfl, by decide⟩,
    c1_provider_close_amended docProviderClose 0
      (mkPage [mkBlock "Past Medical History" 100 110,
               mkBlock "ED Provider Note" 200 210])
      { sections := [], current := some ("Past Medical History", 0, 100) }
      (mkBlock "ED Provider Note" 200 210) "Past Medical History" 0 100 rfl
      (by decide)⟩

/-- C2 counterexample: the Section Boundary Scanner does consult
administrative-context suppression when opening a section.  `docAdminHeader`
and `docPlainHeader` differ only by a "Billing" block 100pt above the header
candidate "Past Medical History": with it the scanner opens nothing
(`is_section_header` suppresses the header, `is_administrative_context` is
true at its y), without it one span is emitted. -/
theorem c2_admin_counterexample :
    findGlobalSectionBoundaries docAdminHeader = [] ∧
    findGlobalSectionBoundaries docPlainHeader =
      [⟨"Past Medical History", 0, 200, 0, 792, 792⟩] ∧
    isAdministrativeContext (mkPage [mkBlock "Billing" 100 110,
      mkBlock "Past Medical History" 200 210]) 200 = true := by
  refine ⟨by decide, by decide, by decide⟩

/-- C2 (amended): administrative-context suppression applies to
SensitiveContent matches and to the scanner's header decision — a candidate
with nonzero y0 inside an administrative-context window never matches as a
section header (so it neither opens a section nor closes one as a new
header) — while the stop-boundary and provider-note close decisions are
functions of the block alone (its text and font size) and never consult the
administrative context. -/
theorem c2_admin_scope :
    (∀ (pg : Page) (y : ℚ) (t : String) (sz : ℚ) (fl : ℤ), y ≠ 0 →
       isAdministrativeContext pg y = true →
       isSectionHeader t sz fl (some pg) (some y) = (false, none)) ∧
    (∀ (d d' : Doc) (i i' : ℕ) (pg pg' : Page) (st : ScanState) (b : Block)
       (c : String × ℕ × ℚ), st.current = some c → isProviderNote b.text = true →
       (scanBlock d i pg st b).current = none ∧
       (scanBlock d' i' pg' st b).current = none) ∧
    (∀ (d d' : Doc) (i i' : ℕ) (pg pg' : Page) (st : ScanState) (b : Block)
       (c : String × ℕ × ℚ), st.current = some c →
       (isSectionHeader b.text b.size b.flags (some pg) (some b.y0)).1 = false →
       (isSectionHeader b.text b.size b.flags (some pg') (some b.y0)).1 = false →
       isMajorSectionBoundary b.text b.size = true →
       (scanBlock d i pg st b).current = none ∧
       (scanBlock d' i' pg' st b).current = none) := by
  refine ⟨?_, ?_, ?_⟩
  · intro pg y t sz fl hy hadm
    have hg : adminGuard (some pg) (some y) = true := by
      show (decide (y ≠ 0) && isAdministrativeContext pg y) = true
      rw [hadm, Bool.and_true, decide_eq_true_eq]
      exact hy
    unfold isSectionHeader
    rw [hg]
    split
    · rfl
    · split
      · rfl
      · rw [if_pos rfl]
  · intro d d' i i' pg pg' st b c hcur hpn
    obtain ⟨nm, sp, sy⟩ := c
    constructor <;>
      · unfold scanBlock
        rw [hcur, hpn]
        rfl
  · intro d d' i i' pg pg' st b c hcur h1 h2 hbd
    obtain ⟨nm, sp, sy⟩ := c
    by_cases hpn : isProviderNote b.text = true
    · constructor <;>
        · unfold scanBlock
          rw [hcur, hpn]
          rfl
    · have hpnf : isProviderNote b.text = false := by
        rwa [Bool.not_eq_true] at hpn
      constructor
      · rcases hh : isSectionHeader b.text b.size b.flags (some pg) (some b.y0)
          with ⟨b1, sn⟩
        rw [hh] at h1
        simp only at h1
        subst h1
        unfold scanBlock
        rw [hcur, hpnf, hh, hbd]
        rfl
      · rcases hh : isSectionHeader b.text b.size b.flags (some pg') (some b.y0)
          with ⟨b1, sn⟩
        rw [hh] at h2
        simp only at h2
        subst h2
        unfold scanBlock
        rw [hcur, hpnf, hh, hbd]
        rfl

set_option maxHeartbeats 2000000 in
/-- C3 counterexample: the two passes do share mutable state — the document
itself.  On `docSectionWithSensitive` the sensitive scan over the original
snapshot finds one SensitiveMatch, but in pipeline order (after the section
redactions have been committed) the sensitive block has been erased and the
scan finds nothing. -/
theorem c3_pipeline_counterexample :
    findSensitiveContentBlocks docSectionWithSensitive =
      [⟨0, mkBlock "History of alcohol abuse noted" 200 210,
        ["\\balcohol\\b", "\\balcohol abuse\\b",
         "\\b(alcohol abuse|alcoholic|alcoholism|alcohol dependence)\\b"]⟩] ∧
    pipelineSensitiveBlocks docSectionWithSensitive = [] := by
  refine ⟨by decide, by decide⟩

/-- C3 (amended): the sensitive scan as the pipeline runs it operates on the
document after the section redactions are committed; the two orders agree
whenever the section pass emits no span (so nothing is erased in between). -/
theorem c3_passes_amended (d : Doc)
    (h : findGlobalSectionBoundaries d = []) :
    pipelineSensitiveBlocks d = findSensitiveContentBlocks d := by
  have hrects : sectionPassRects d = [] := by
    unfold sectionPassRects
    rw [h]
    rfl
  have hdoc : applyRectsToDoc d [] = d := by
    unfold applyRectsToDoc
    cases d with
    | mk pages =>
      congr 1
      conv_rhs => rw [← List.enum_map_snd pages]
      apply List.map_congr_left
      intro pi _
      simp [List.filter_true]
  unfold pipelineSensitiveBlocks
  rw [hrects, hdoc]

/-- C3 amended, witness: a document with no redactable section. -/
theorem c3_passes_amended_witness :
    findGlobalSectionBoundaries docNoSections = [] ∧
    pipelineSensitiveBlocks docNoSections =
      findSensitiveContentBlocks docNoSections :=
  ⟨by decide, c3_passes_amended docNoSections (by decide)⟩

set_option maxHeartbeats 2000000 in
/-- C4 counterexample: on `docExtendPastBottom` (page height 792) the close of
"Past Surgical History" at y = 700 is extended to `maxContentBottom + 5 = 796`
— beyond the page height, because the source adds 5 to the matched content's
bottom without clamping. -/
theorem c4_extension_counterexample :
    (findGlobalSectionBoundaries docExtendPastBottom).map (·.endY) = [796] ∧
    docExtendPastBottom.pages.map (·.height) = [792] ∧
    ¬ ((796 : ℚ) ≤ 792) := by
  refine ⟨by decide, by decide, by decide⟩

/-- C4 (amended): the look-ahead window is clamped to the page height and, on
a wellformed document whose closing boundary lies within the page, the
returned end boundary is at most `pageHeight + 5` (it can exceed the page
height by up to 5 points); the extension never moves the span onto a
subsequent page — a span emitted while scanning page `i` has `endPage = i`,
the extension adjusting only `endY`. -/
theorem c4_extension_bound :
    (∀ (d : Doc) (n : String) (sp : ℕ) (sy : ℚ) (ep : ℕ) (oy : ℚ) (pg : Page),
       WFDoc d → d.pages.get? ep = some pg → oy ≤ pg.height →
       applyTargetedDetection n sp sy ep oy d ≤ pg.height + 5) ∧
    (∀ (d : Doc) (i : ℕ) (pg : Page) (st : ScanState) (b : Block)
       (s : SectionSpan),
       (scanBlock d i pg st b).sections = st.sections ++ [s] → s.endPage = i) := by
  constructor
  · intro d n sp sy ep oy pg hwf hpg hoy
    unfold applyTargetedDetection
    split
    · linarith
    · split
      · linarith
      · rename_i pg2 hpg2
        rw [hpg] at hpg2
        injection hpg2 with hpg2
        subst hpg2
        split
        · linarith
        · rename_i c cs hfound
          split
          · linarith
          · have hall : ∀ b2 ∈ (c :: cs), b2.y1 ≤ pg.height := by
              intro b2 hb2
              rw [← hfound] at hb2
              rw [findTargetedContentInRange, List.mem_filter] at hb2
              exact (wf_extract hwf (List.get?_mem hpg) hb2.1).2.2
            have h1 : c.y1 ≤ pg.height := hall c (List.mem_cons_self c cs)
            have h2 : ∀ y ∈ cs.map (·.y1), y ≤ pg.height := by
              intro y hy
              rw [List.mem_map] at hy
              obtain ⟨b2, hb2, hb2y⟩ := hy
              rw [← hb2y]
              exact hall b2 (List.mem_cons_of_mem c hb2)
            have := listMaxQ_le h1 h2
            linarith
  · intro d i pg st b s h
    unfold scanBlock at h
    rcases hcur : st.current with _ | ⟨nm, sp, sy⟩ <;> rw [hcur] at h
    · rcases hh : isSectionHeader b.text b.size b.flags (some pg) (some b.y0)
        with ⟨b1, sn⟩
      rw [hh] at h
      rcases b1 <;> simp only at h
      · exact absurd h (by simp)
      · exact absurd h (by simp)
    · by_cases hpn : isProviderNote b.text = true
      · simp only [hpn, if_true] at h
        have := List.append_inj_right h rfl
        injection this with h1
        rw [← h1]
      · simp only [hpn] at h
        rw [if_neg (by simp [hpn])] at h
        rcases hh : isSectionHeader b.text b.size b.flags (some pg) (some b.y0)
          with ⟨b1, sn⟩
        rw [hh] at h
        rcases b1 <;> simp only at h
        · by_cases hbd : isMajorSectionBoundary b.text b.size = true
          · simp only [hbd, if_true] at h
            have := List.append_inj_right h rfl
            injection this with h1
            rw [← h1]
          · rw [if_neg (by simp [hbd])] at h
            exact absurd h (by simp)
        · have := List.append_inj_right h rfl
          injection this with h1
          rw [← h1]

/-- A provider-note block always qualifies as a major section boundary. -/
theorem providerNote_isBoundary {t : String} (s : ℚ)
    (h : isProviderNote t = true) : isMajorSectionBoundary t s = true := by
  unfold isMajorSectionBoundary
  rw [h]
  rfl

/-- C5: when the Extender runs for a targeted section and the look-ahead
window holds procedural content, it returns `maxContentBottom + 5` unless a
block strictly between `originalEndY` and `maxContentBottom + 10` qualifies as
a stop boundary, in which case it returns `originalEndY` unchanged; and in
every case no block qualifying as a StopBoundary or ProviderNoteOverride lies
strictly between `originalEndY` and the returned boundary. -/
theorem c5_extender_behavior (d : Doc) (n : String) (sp : ℕ) (sy : ℚ)
    (ep : ℕ) (oy : ℚ) (pg : Page) (c : Block) (cs : List Block)
    (hpg : d.pages.get? ep = some pg)
    (hn : targetedDetectionSections.contains n = true)
    (hfound : findTargetedContentInRange pg oy
        (pyMin (oy + detectionRange) pg.height) = c :: cs) :
    (applyTargetedDetection n sp sy ep oy d =
      if (extractTextBlocks pg).any fun b2 =>
          decide (oy < b2.y0) &&
            decide (b2.y0 < listMaxQ c.y1 (cs.map (·.y1)) + 10) &&
            isMajorSectionBoundary b2.text b2.size
      then oy
      else listMaxQ c.y1 (cs.map (·.y1)) + 5) ∧
    (∀ b2 ∈ extractTextBlocks pg,
      (isMajorSectionBoundary b2.text b2.size = true ∨
        isProviderNote b2.text = true) →
      ¬ (oy < b2.y0 ∧ b2.y0 < applyTargetedDetection n sp sy ep oy d)) := by
  have h1 : applyTargetedDetection n sp sy ep oy d =
      (if (extractTextBlocks pg).any fun b2 =>
          decide (oy < b2.y0) &&
            decide (b2.y0 < listMaxQ c.y1 (cs.map (·.y1)) + 10) &&
            isMajorSectionBoundary b2.text b2.size
       then oy
       else listMaxQ c.y1 (cs.map (·.y1)) + 5) := by
    unfold applyTargetedDetection
    rw [hn, hpg]
    show (match findTargetedContentInRange pg oy
        (pyMin (oy + detectionRange) pg.height) with
      | [] => oy
      | c :: cs =>
        if ((extractTextBlocks pg).any fun b2 =>
            decide (oy < b2.y0) &&
              decide (b2.y0 < listMaxQ c.y1 (List.map (fun x : Block => x.y1) cs)
                + 10) &&
              isMajorSectionBoundary b2.text b2.size) = true
        then oy
        else listMaxQ c.y1 (List.map (fun x : Block => x.y1) cs) + 5) = _
    rw [hfound]
  refine ⟨h1, ?_⟩
  intro b2 hb2 hbnd ⟨hgt, hlt⟩
  have hbd : isMajorSectionBoundary b2.text b2.size = true := by
    rcases hbnd with h | h
    · exact h
    · exact providerNote_isBoundary b2.size h
  by_cases hA : ((extractTextBlocks pg).any fun b2 =>
      decide (oy < b2.y0) &&
        decide (b2.y0 < listMaxQ c.y1 (cs.map (·.y1)) + 10) &&
        isMajorSectionBoundary b2.text b2.size) = true
  · rw [h1, if_pos hA] at hlt
    linarith
  · rw [h1, if_neg hA] at hlt
    apply hA
    rw [List.any_eq_true]
    refine ⟨b2, hb2, ?_⟩
    rw [Bool.and_eq_true, Bool.and_eq_true]
    refine ⟨⟨decide_eq_true hgt, decide_eq_true (by linarith)⟩, hbd⟩

/-- C5 witness: the Extender applied to `docProcedural` for a
"Past Surgical History" close at y = 300 (scenario 3 of the spec): the
procedural block at y ∈ [310, 330] is found, no stop boundary intervenes, and
the boundary becomes 335 = 330 + 5. -/
theorem c5_extender_behavior_witness :
    (docProcedural.pages.get? 0 = some pageProcedural ∧
      targetedDetectionSections.contains "Past Surgical History" = true ∧
      findTargetedContentInRange pageProcedural 300
        (pyMin ((300 : ℚ) + detectionRange) pageProcedural.height) =
        [⟨"plan debridement and wound care", 50, 310, 400, 330, 9, 4⟩]) ∧
    ((applyTargetedDetection "Past Surgical History" 0 100 0 300 docProcedural =
      if (extractTextBlocks pageProcedural).any fun b2 =>
          decide ((300 : ℚ) < b2.y0) &&
            decide (b2.y0 < listMaxQ
              (⟨"plan debridement and wound care", 50, 310, 400, 330, 9, 4⟩ :
                Block).y1 (([] : List Block).map (·.y1)) + 10) &&
            isMajorSectionBoundary b2.text b2.size
      then (300 : ℚ)
      else listMaxQ (⟨"plan debridement and wound care", 50, 310, 400, 330, 9,
        4⟩ : Block).y1 (([] : List Block).map (·.y1)) + 5) ∧
    (∀ b2 ∈ extractTextBlocks pageProcedural,
      (isMajorSectionBoundary b2.text b2.size = true ∨
        isProviderNote b2.text = true) →
      ¬ ((300 : ℚ) < b2.y0 ∧
        b2.y0 < applyTargetedDetection "Past Surgical History" 0 100 0 300
          docProcedural))) :=
  ⟨⟨by decide, by decide, by decide⟩,
    c5_extender_behavior docProcedural "Past Surgical History" 0 100 0 300
      pageProcedural ⟨"plan debridement and wound care", 50, 310, 400, 330, 9, 4⟩
      [] (by decide) (by decide) (by decide)⟩

/-- The sensitive-content flag fires exactly on blocks whose trimmed length is
at least 3 with at least one matched label. -/
theorem containsSensitive_fst (t : String) :
    (containsSensitiveContent t).1 = true ↔
      3 ≤ (pyStrip t).length ∧ matchedSensitiveLabels (pyStrip t) ≠ [] := by
  unfold containsSensitiveContent
  split
  · rename_i h
    constructor
    · intro hf
      exact absurd hf (by simp)
    · intro ⟨h3, _⟩
      have : (pyStrip t).length = (trimChars t.data).length := rfl
      omega
  · rename_i h
    simp only [List.isEmpty_iff, Bool.not_eq_true']
    constructor
    · intro hne
      refine ⟨?_, ?_⟩
      · have : (pyStrip t).length = (trimChars t.data).length := rfl
        omega
      · intro hempty
        rw [hempty] at hne
        exact absurd hne (by simp)
    · intro ⟨_, hne⟩
      rcases hm : matchedSensitiveLabels (pyStrip t) with _ | ⟨a, l⟩
      · exact absurd hm hne
      · rfl

/-- Under the length threshold test, the collected labels are exactly the
labels of every sensitive pattern that fires. -/
theorem containsSensitive_snd (t : String)
    (h : 3 ≤ (pyStrip t).length) :
    (containsSensitiveContent t).2 = matchedSensitiveLabels (pyStrip t) := by
  unfold containsSensitiveContent
  rw [if_neg ?hneg]
  case hneg =>
    have : (pyStrip t).length = (trimChars t.data).length := rfl
    omega

/-- The administrative-context test, spelled as the claim states it. -/
theorem isAdministrativeContext_iff (pg : Page) (y : ℚ) :
    isAdministrativeContext pg y = true ↔
      ∃ b2 ∈ extractTextBlocks pg, y - contextWindow ≤ b2.y0 ∧ b2.y0 < y ∧
        containsAdminIndicator b2.text = true := by
  unfold isAdministrativeContext
  rw [List.any_eq_true]
  constructor
  · intro ⟨b2, hb2, hcond⟩
    rw [Bool.and_eq_true, Bool.and_eq_true] at hcond
    exact ⟨b2, hb2, decide_eq_true_eq.mp hcond.1.1,
      decide_eq_true_eq.mp hcond.1.2, hcond.2⟩
  · intro ⟨b2, hb2, h1, h2, h3⟩
    refine ⟨b2, hb2, ?_⟩
    rw [Bool.and_eq_true, Bool.and_eq_true]
    exact ⟨⟨decide_eq_true h1, decide_eq_true h2⟩, h3⟩

/-- Membership in one page's sensitive-candidate list. -/
theorem mem_sensPage {i : ℕ} {pg : Page} {sb : SensitiveBlock} :
    sb ∈ sensPage i pg ↔
      sb.block ∈ extractTextBlocks pg ∧ sb.page = i ∧
      (containsSensitiveContent sb.block.text).1 = true ∧
      isAdministrativeContext pg sb.block.y0 = false ∧
      sb.patterns = (containsSensitiveContent sb.block.text).2 := by
  unfold sensPage
  rw [List.mem_filterMap]
  constructor
  · intro ⟨b, hb, hsome⟩
    split at hsome
    · rename_i hguard
      rw [Bool.and_eq_true, Bool.not_eq_true'] at hguard
      injection hsome with h
      rw [← h]
      exact ⟨hb, rfl, hguard.1, hguard.2, rfl⟩
    · exact absurd hsome (by simp)
  · intro ⟨hb, hpage, hfst, hadm, hpats⟩
    refine ⟨sb.block, hb, ?_⟩
    rw [if_pos (by rw [Bool.and_eq_true, Bool.not_eq_true']; exact ⟨hfst, hadm⟩)]
    cases sb with
    | mk p bl pats =>
      simp only at hpage hpats
      rw [hpage, hpats]

/-- Membership in the page-indexed scan result. -/
theorem mem_findSensAux (ps : List Page) (k : ℕ) (sb : SensitiveBlock) :
    sb ∈ findSensAux k ps ↔
      ∃ j pg, ps.get? j = some pg ∧ sb.page = k + j ∧
        sb ∈ sensPage (k + j) pg := by
  induction ps generalizing k with
  | nil =>
    simp only [findSensAux, List.not_mem_nil, false_iff]
    intro ⟨j, pg, hget, _⟩
    simp at hget
  | cons pg ps ih =>
    simp only [findSensAux, List.mem_append]
    constructor
    · intro h
      rcases h with h | h
      · exact ⟨0, pg, rfl, by
          have := (mem_sensPage.mp h).2.1
          omega, by
          have hk : k + 0 = k := rfl
          rw [hk]
          exact h⟩
      · obtain ⟨j, pg', hget, hpage, hmem⟩ := (ih (k + 1)).mp h
        refine ⟨j + 1, pg', by simpa using hget, by omega, ?_⟩
        have : k + (j + 1) = k + 1 + j := by omega
        rw [this]
        exact hmem
    · intro ⟨j, pg', hget, hpage, hmem⟩
      cases j with
      | zero =>
        left
        have hpg : pg' = pg := by
          simp at hget
          exact hget.symm
        rw [hpg] at hmem
        have : k + 0 = k := rfl
        rw [this] at hmem
        exact hmem
      | succ j =>
        right
        refine (ih (k + 1)).mpr ⟨j, pg', by simpa using hget, by omega, ?_⟩
        have : k + 1 + j = k + (j + 1) := by omega
        rw [this]
        exact hmem

set_option maxHeartbeats 2000000 in
/-- C6: the Sensitive Content Scanner emits exactly the blocks whose trimmed
length is at least 3 and on which at least one SensitiveContent pattern
fires, with the labels of every firing pattern collected, unless some block
on the same page with y0 in `[candidate.y0 − 150, candidate.y0)` holds an
administrative indicator phrase; "Patient has a history of alcohol abuse"
beneath "Visit Information" within 150pt yields no SensitiveMatch, while the
same text alone yields one with at least 2 matched labels. -/
theorem c6_sensitive_scanner :
    (∀ (d : Doc) (sb : SensitiveBlock),
      sb ∈ findSensitiveContentBlocks d ↔
        ∃ pg, d.pages.get? sb.page = some pg ∧
          sb.block ∈ extractTextBlocks pg ∧
          3 ≤ (pyStrip sb.block.text).length ∧
          sb.patterns = matchedSensitiveLabels (pyStrip sb.block.text) ∧
          sb.patterns ≠ [] ∧
          ¬ ∃ b2 ∈ extractTextBlocks pg,
              sb.block.y0 - contextWindow ≤ b2.y0 ∧ b2.y0 < sb.block.y0 ∧
              containsAdminIndicator b2.text = true) ∧
    findSensitiveContentBlocks docSensitiveUnderAdmin = [] ∧
    (findSensitiveContentBlocks docSensitiveAlone).length = 1 ∧
    (∀ sb ∈ findSensitiveContentBlocks docSensitiveAlone,
      2 ≤ sb.patterns.length) := by
  refine ⟨?_, by decide, by decide, by decide⟩
  intro d sb
  unfold findSensitiveContentBlocks
  rw [mem_findSensAux]
  constructor
  · intro ⟨j, pg, hget, hpage, hmem⟩
    obtain ⟨hb, _, hfst, hadm, hpats⟩ := mem_sensPage.mp hmem
    obtain ⟨h3, hne⟩ := (containsSensitive_fst sb.block.text).mp hfst
    refine ⟨pg, ?_, hb, h3, ?_, ?_, ?_⟩
    · rw [hpage]
      simpa using hget
    · rw [hpats]
      exact containsSensitive_snd sb.block.text h3
    · rw [hpats, containsSensitive_snd sb.block.text h3]
      exact hne
    · intro hex
      have := (isAdministrativeContext_iff pg sb.block.y0).mpr hex
      rw [hadm] at this
      exact absurd this (by simp)
  · intro ⟨pg, hget, hb, h3, hpats, hne, hnoadm⟩
    refine ⟨sb.page, pg, by simpa using hget, by omega, ?_⟩
    rw [mem_sensPage]
    refine ⟨hb, by omega, ?_, ?_, ?_⟩
    · rw [containsSensitive_fst]
      rw [hpats] at hne
      exact ⟨h3, hne⟩
    · rw [← Bool.not_eq_true]
      intro hadm
      exact hnoadm ((isAdministrativeContext_iff pg sb.block.y0).mp hadm)
    · rw [containsSensitive_snd sb.block.text h3]
      exact hpats

theorem get?_some_lt {α} {l : List α} {n : ℕ} {a : α} (h : l.get? n = some a) :
    n < l.length := by
  by_contra hn
  rw [List.get?_eq_none.mpr (by omega)] at h
  exact absurd h (by simp)

theorem CurOK_tail {d : Doc} {i : ℕ} {b : Block} {rest : List Block}
    {st : ScanState} (h : CurOK d i (b :: rest) st) : CurOK d i rest st := by
  intro n sp sy hsome
  obtain ⟨h1, h2, h3⟩ := h n sp sy hsome
  exact ⟨h1, h2, fun hsp b' hb' => h3 hsp b' (List.mem_cons_of_mem b hb')⟩

theorem goodSpan_close {d : Doc} {i : ℕ} {pg : Page}
    (hpg : d.pages.get? i = some pg) {nm : String} {sp0 : ℕ} {sy0 : ℚ}
    {b : Block} (hsp : sp0 ≤ i) (hsame : sp0 = i → sy0 ≤ b.y0) {e : ℚ}
    (he : b.y0 ≤ e) : GoodSpan d ⟨nm, sp0, sy0, i, e, b.y0⟩ :=
  ⟨he, hsp, hsame, get?_some_lt hpg⟩

theorem scanBlock_eq_provider {d : Doc} {i : ℕ} {pg : Page} {st : ScanState}
    {b : Block} {nm : String} {sp0 : ℕ} {sy0 : ℚ}
    (hc : st.current = some (nm, sp0, sy0)) (hp : isProviderNote b.text = true) :
    scanBlock d i pg st b =
      { sections := st.sections ++ [⟨nm, sp0, sy0, i,
          pyMin (applyTargetedDetection nm sp0 sy0 i b.y0 d) b.y0, b.y0⟩],
        current := none } := by
  unfold scanBlock
  rw [hc, hp]
  rfl

theorem scanBlock_eq_header_close {d : Doc} {i : ℕ} {pg : Page} {st : ScanState}
    {b : Block} {nm : String} {sp0 : ℕ} {sy0 : ℚ} {sn : Option String}
    (hc : st.current = some (nm, sp0, sy0)) (hp : isProviderNote b.text = false)
    (hh : isSectionHeader b.text b.size b.flags (some pg) (some b.y0) =
      (true, sn)) :
    scanBlock d i pg st b =
      { sections := st.sections ++ [⟨nm, sp0, sy0, i,
          applyTargetedDetection nm sp0 sy0 i b.y0 d, b.y0⟩],
        current := some (sn.getD "", i, b.y0) } := by
  unfold scanBlock
  rw [hc, hp, hh]
  rfl

theorem scanBlock_eq_boundary {d : Doc} {i : ℕ} {pg : Page} {st : ScanState}
    {b : Block} {nm : String} {sp0 : ℕ} {sy0 : ℚ} {sn : Option String}
    (hc : st.current = some (nm, sp0, sy0)) (hp : isProviderNote b.text = false)
    (hh : isSectionHeader b.text b.size b.flags (some pg) (some b.y0) =
      (false, sn))
    (hbd : isMajorSectionBoundary b.text b.size = true) :
    scanBlock d i pg st b =
      { sections := st.sections ++ [⟨nm, sp0, sy0, i,
          applyTargetedDetection nm sp0 sy0 i b.y0 d, b.y0⟩],
        current := none } := by
  unfold scanBlock
  rw [hc, hp, hh, hbd]
  rfl

theorem scanBlock_eq_body {d : Doc} {i : ℕ} {pg : Page} {st : ScanState}
    {b : Block} {nm : String} {sp0 : ℕ} {sy0 : ℚ} {sn : Option String}
    (hc : st.current = some (nm, sp0, sy0)) (hp : isProviderNote b.text = false)
    (hh : isSectionHeader b.text b.size b.flags (some pg) (some b.y0) =
      (false, sn))
    (hbd : isMajorSectionBoundary b.text b.size = false) :
    scanBlock d i pg st b = st := by
  unfold scanBlock
  rw [hc, hp, hh, hbd]
  rfl

theorem scanBlock_eq_open {d : Doc} {i : ℕ} {pg : Page} {st : ScanState}
    {b : Block} {sn : Option String} (hc : st.current = none)
    (hh : isSectionHeader b.text b.size b.flags (some pg) (some b.y0) =
      (true, sn)) :
    scanBlock d i pg st b =
      { sections := st.sections, current := some (sn.getD "", i, b.y0) } := by
  unfold scanBlock
  rw [hc, hh]

theorem scanBlock_eq_skip {d : Doc} {i : ℕ} {pg : Page} {st : ScanState}
    {b : Block} {sn : Option String} (hc : st.current = none)
    (hh : isSectionHeader b.text b.size b.flags (some pg) (some b.y0) =
      (false, sn)) :
    scanBlock d i pg st b = st := by
  unfold scanBlock
  rw [hc, hh]

theorem scanBlock_inv {d : Doc} {i : ℕ} {pg : Page} {st : ScanState}
    {b : Block} {rest : List Block} (hwf : WFDoc d)
    (hpg : d.pages.get? i = some pg) (hb : b ∈ extractTextBlocks pg)
    (hrest : ∀ b' ∈ rest, b.y0 ≤ b'.y0)
    (hgood : ∀ s ∈ st.sections, GoodSpan d s)
    (hcur : CurOK d i (b :: rest) st) :
    (∀ s ∈ (scanBlock d i pg st b).sections, GoodSpan d s) ∧
      CurOK d i rest (scanBlock d i pg st b) := by
  have hwfb := wf_extract hwf (List.get?_mem hpg) hb
  have hopenOK : ∀ sn : Option String, CurOK d i rest
      { sections := st.sections, current := some (sn.getD "", i, b.y0) } := by
    intro sn n sp sy hsome
    simp only at hsome
    injection hsome with h
    injection h with h1 h2
    injection h2 with h2 h3
    subst h2 h3
    exact ⟨le_refl i, ⟨pg, hpg, le_trans hwfb.2.1 hwfb.2.2⟩, fun _ => hrest⟩
  have hgoodApp : ∀ (s0 : SectionSpan), GoodSpan d s0 →
      ∀ s ∈ st.sections ++ [s0], GoodSpan d s := by
    intro s0 hs0 s hs
    rw [List.mem_append] at hs
    rcases hs with hs | hs
    · exact hgood s hs
    · rw [List.mem_singleton] at hs
      subst hs
      exact hs0
  rcases hc : st.current with _ | ⟨nm, sp0, sy0⟩
  · rcases hh : isSectionHeader b.text b.size b.flags (some pg) (some b.y0)
      with ⟨bb, sn⟩
    cases bb
    · rw [scanBlock_eq_skip hc hh]
      exact ⟨hgood, CurOK_tail hcur⟩
    · rw [scanBlock_eq_open hc hh]
      refine ⟨hgood, ?_⟩
      intro n sp sy hsome
      simp only at hsome
      injection hsome with h
      injection h with h1 h2
      injection h2 with h2 h3
      subst h2 h3
      exact ⟨le_refl i, ⟨pg, hpg, le_trans hwfb.2.1 hwfb.2.2⟩, fun _ => hrest⟩
  · obtain ⟨hsp, ⟨pgs, hget, hsy⟩, hsame⟩ := hcur nm sp0 sy0 hc
    have hsameb : sp0 = i → sy0 ≤ b.y0 :=
      fun hsp0 => hsame hsp0 b (List.mem_cons_self b rest)
    by_cases hp : isProviderNote b.text = true
    · rw [scanBlock_eq_provider hc hp]
      refine ⟨hgoodApp _ (goodSpan_close hpg hsp hsameb
          (le_pyMin (extension_ge hwf nm sp0 sy0 i b.y0) (le_refl b.y0))), ?_⟩
      intro n sp sy hsome
      exact absurd hsome (by simp)
    · have hpf : isProviderNote b.text = false := by
        rwa [Bool.not_eq_true] at hp
      rcases hh : isSectionHeader b.text b.size b.flags (some pg) (some b.y0)
        with ⟨bb, sn⟩
      cases bb
      · by_cases hbd : isMajorSectionBoundary b.text b.size = true
        · rw [scanBlock_eq_boundary hc hpf hh hbd]
          refine ⟨hgoodApp _ (goodSpan_close hpg hsp hsameb
              (extension_ge hwf nm sp0 sy0 i b.y0)), ?_⟩
          intro n sp sy hsome
          exact absurd hsome (by simp)
        · have hbdf : isMajorSectionBoundary b.text b.size = false := by
            rwa [Bool.not_eq_true] at hbd
          rw [scanBlock_eq_body hc hpf hh hbdf]
          exact ⟨hgood, CurOK_tail hcur⟩
      · rw [scanBlock_eq_header_close hc hpf hh]
        refine ⟨hgoodApp _ (goodSpan_close hpg hsp hsameb
            (extension_ge hwf nm sp0 sy0 i b.y0)), ?_⟩
        intro n sp sy hsome
        simp only at hsome
        injection hsome with h
        injection h with h1 h2
        injection h2 with h2 h3
        subst h2 h3
        exact ⟨le_refl i, ⟨pg, hpg, le_trans hwfb.2.1 hwfb.2.2⟩, fun _ => hrest⟩

theorem scanPageBlocks_inv {d : Doc} {i : ℕ} {pg : Page} (hwf : WFDoc d)
    (hpg : d.pages.get? i = some pg) :
    ∀ (l : List Block) (st : ScanState), (∀ x ∈ l, x ∈ extractTextBlocks pg) →
      l.Pairwise blockLE →
      (∀ s ∈ st.sections, GoodSpan d s) → CurOK d i l st →
      (∀ s ∈ (scanPageBlocks d i pg st l).sections, GoodSpan d s) ∧
        CurOK d i [] (scanPageBlocks d i pg st l) := by
  intro l
  induction l with
  | nil =>
    intro st _ _ hgood hcur
    exact ⟨hgood, hcur⟩
  | cons b rest ih =>
    intro st hsub hpw hgood hcur
    rw [List.pairwise_cons] at hpw
    have hstep := scanBlock_inv hwf hpg (hsub b (List.mem_cons_self b rest))
      (fun b' hb' => hpw.1 b' hb') hgood hcur
    exact ih (scanBlock d i pg st b)
      (fun x hx => hsub x (List.mem_cons_of_mem b hx)) hpw.2 hstep.1 hstep.2

theorem drop_eq_cons_get? {α} {l : List α} {i : ℕ} {a : α} {r : List α}
    (h : l.drop i = a :: r) : l.get? i = some a := by
  induction i generalizing l with
  | zero =>
    rw [List.drop_zero] at h
    rw [h]
    rfl
  | succ i ih =>
    cases l with
    | nil => simp at h
    | cons x xs =>
      rw [List.drop_succ_cons] at h
      exact ih h

theorem drop_eq_cons_succ {α} {l : List α} {i : ℕ} {a : α} {r : List α}
    (h : l.drop i = a :: r) : l.drop (i + 1) = r := by
  induction i generalizing l with
  | zero =>
    rw [List.drop_zero] at h
    rw [h]
    rfl
  | succ i ih =>
    cases l with
    | nil => simp at h
    | cons x xs =>
      rw [List.drop_succ_cons] at h ⊢
      exact ih h

theorem scanPages_inv {d : Doc} (hwf : WFDoc d) :
    ∀ (ps : List Page) (i : ℕ) (st : ScanState), d.pages.drop i = ps →
      (∀ s ∈ st.sections, GoodSpan d s) →
      (∀ n sp sy, st.current = some (n, sp, sy) →
        sp < i ∧ ∃ pgs, d.pages.get? sp = some pgs ∧ sy ≤ pgs.height) →
      (∀ s ∈ (scanPages d i ps st).sections, GoodSpan d s) ∧
      (∀ n sp sy, (scanPages d i ps st).current = some (n, sp, sy) →
        sp < i + ps.length ∧
          ∃ pgs, d.pages.get? sp = some pgs ∧ sy ≤ pgs.height) := by
  intro ps
  induction ps with
  | nil =>
    intro i st _ hgood hcur
    exact ⟨hgood, fun n sp sy h => by
      obtain ⟨h1, h2⟩ := hcur n sp sy h
      exact ⟨by omega, h2⟩⟩
  | cons pg rest ih =>
    intro i st hdrop hgood hcur
    have hpg : d.pages.get? i = some pg := drop_eq_cons_get? hdrop
    have hsorted : List.Pairwise blockLE (extractTextBlocks pg) :=
      List.sorted_insertionSort blockLE _
    have hcur0 : CurOK d i (extractTextBlocks pg) st := by
      intro n sp sy hsome
      obtain ⟨h1, h2⟩ := hcur n sp sy hsome
      exact ⟨by omega, h2, fun hsp => absurd hsp (by omega)⟩
    have hmid := scanPageBlocks_inv hwf hpg (extractTextBlocks pg) st
      (fun x hx => hx) hsorted hgood hcur0
    have hnext := ih (i + 1) (scanPageBlocks d i pg st (extractTextBlocks pg))
      (drop_eq_cons_succ hdrop) hmid.1
      (by
        intro n sp sy hsome
        obtain ⟨h1, h2, _⟩ := hmid.2 n sp sy hsome
        exact ⟨by omega, h2⟩)
    refine ⟨hnext.1, ?_⟩
    intro n sp sy hsome
    obtain ⟨h1, h2⟩ := hnext.2 n sp sy hsome
    refine ⟨?_, h2⟩
    have : (pg :: rest).length = rest.length + 1 := by simp
    omega

theorem findGlobal_goodSpans (d : Doc) (hwf : WFDoc d) :
    ∀ s ∈ findGlobalSectionBoundaries d, GoodSpan d s := by
  have h := scanPages_inv hwf d.pages 0 ⟨[], none⟩ (List.drop_zero _)
    (by intro s hs; exact absurd hs (by simp))
    (by intro n sp sy hsome; exact absurd hsome (by simp))
  intro s hs
  simp only [findGlobalSectionBoundaries] at hs
  rcases hcur : (scanPages d 0 d.pages ⟨[], none⟩).current
    with _ | ⟨nm, sp, sy⟩ <;> rw [hcur] at hs
  · exact h.1 s hs
  · rcases hlast : d.pages.getLast? with _ | lastPg <;> rw [hlast] at hs
    · exact h.1 s hs
    · simp only at hs
      rw [List.mem_append] at hs
      rcases hs with hs | hs
      · exact h.1 s hs
      · rw [List.mem_singleton] at hs
        subst hs
        obtain ⟨hlt, pgs, hget, hsy⟩ := h.2 nm sp sy hcur
        have hne : d.pages ≠ [] := by
          intro hnil
          rw [hnil] at hlast
          exact absurd hlast (by simp)
        have hlen : 0 < d.pages.length := List.length_pos.mpr hne
        refine ⟨extension_ge hwf nm sp sy (d.pages.length - 1) lastPg.height,
          show sp ≤ d.pages.length - 1 by omega, ?_,
          show d.pages.length - 1 < d.pages.length by omega⟩
        intro hsp
        have hsp' : sp = d.pages.length - 1 := hsp
        have hgl : d.pages.getLast? = d.pages.get? (d.pages.length - 1) :=
          List.getLast?_eq_get? d.pages
        rw [hgl, ← hsp', hget] at hlast
        injection hlast with hlast
        show sy ≤ lastPg.height
        rw [← hlast]
        exact hsy

/-- C7: every emitted SectionSpan satisfies `endY ≥ originalEndY`,
`endPage ≥ startPage`, and `originalEndY ≥ startY` when the span starts and
ends on the same page. -/
theorem c7_span_invariants (d : Doc) (hwf : WFDoc d) :
    ∀ s ∈ findGlobalSectionBoundaries d,
      s.originalEndY ≤ s.endY ∧ s.startPage ≤ s.endPage ∧
        (s.startPage = s.endPage → s.startY ≤ s.originalEndY) := by
  intro s hs
  obtain ⟨h1, h2, h3, _⟩ := findGlobal_goodSpans d hwf s hs
  exact ⟨h1, h2, h3⟩

/-- C7 witness: the invariants hold on `docExtendPastBottom`'s emitted span. -/
theorem c7_span_invariants_witness :
    WFDoc docExtendPastBottom ∧
    (∀ s ∈ findGlobalSectionBoundaries docExtendPastBottom,
      s.originalEndY ≤ s.endY ∧ s.startPage ≤ s.endPage ∧
        (s.startPage = s.endPage → s.startY ≤ s.originalEndY)) :=
  ⟨by decide, c7_span_invariants docExtendPastBottom (by decide)⟩


/-! ## Engine lemmas for the header-pattern proofs -/

/-- Running tokens over no states yields no states. -/
theorem runToks_nil_states : ∀ ts : List Rtok, runToks ts ([] : List MState) = [] := by
  intro ts
  induction ts with
  | nil => rfl
  | cons t ts ih => simp [runToks, ih]

/-- One token's step on a single state. -/
theorem runToks_cons_one (t : Rtok) (ts : List Rtok) (st : MState) :
    runToks (t :: ts) [st] = runToks ts (stepTok t st) := by
  show runToks ts ([st].flatMap (stepTok t)) = runToks ts (stepTok t st)
  congr 1
  simp

/-- `runToks` is monotone in the state set. -/
theorem runToks_mono : ∀ (ts : List Rtok) (s1 s2 : List MState), s1 ⊆ s2 →
    runToks ts s1 ⊆ runToks ts s2 := by
  intro ts
  induction ts with
  | nil => intro s1 s2 h; exact h
  | cons t ts ih =>
    intro s1 s2 h
    show runToks ts (s1.flatMap (stepTok t)) ⊆ runToks ts (s2.flatMap (stepTok t))
    apply ih
    intro x hx
    rw [List.mem_flatMap] at hx ⊢
    obtain ⟨a, ha, hxa⟩ := hx
    exact ⟨a, h ha, hxa⟩

/-- Membership propagates through one token step. -/
theorem mem_runToks_cons {t : Rtok} {ts : List Rtok} {st st' x : MState}
    (h1 : st' ∈ stepTok t st) (h2 : x ∈ runToks ts [st']) :
    x ∈ runToks (t :: ts) [st] := by
  rw [runToks_cons_one]
  refine runToks_mono ts [st'] (stepTok t st) ?_ h2
  intro y hy
  rw [List.mem_singleton] at hy
  subst hy
  exact h1

/-- A list with a member is not `isEmpty`. -/
theorem isEmpty_false_of_mem {l : List MState} {x : MState} (h : x ∈ l) :
    l.isEmpty = false := by
  cases l with
  | nil => exact absurd h (List.not_mem_nil x)
  | cons a l => rfl

/-- A run of literal tokens consumes exactly its characters (case matches,
since the text carries them verbatim). -/
theorem runToks_lit_all : ∀ (w : List Char) (ts : List Rtok) (p : Option Char)
    (r : List Char),
    runToks (w.map Rtok.lit1 ++ ts) [(p, w ++ r)] = runToks ts [(lastOpt p w, r)] := by
  intro w
  induction w with
  | nil => intro ts p r; rfl
  | cons c w ih =>
    intro ts p r
    show runToks (Rtok.lit1 c :: (w.map Rtok.lit1 ++ ts)) [(p, c :: (w ++ r))] =
      runToks ts [(lastOpt p (c :: w), r)]
    rw [runToks_cons_one]
    have hstep : stepTok (Rtok.lit1 c) (p, c :: (w ++ r)) = [(some c, w ++ r)] := by
      show (if c.toLower = c.toLower then [(some c, w ++ r)] else []) = _
      rw [if_pos rfl]
    rw [hstep, ih]
    rfl

/-- A run of literal tokens fails when the (case-folded) literal word is not a
prefix of the remaining text. -/
theorem runToks_lit_nomatch : ∀ (w : List Char) (ts : List Rtok)
    (p : Option Char) (cs : List Char),
    (lowerChars w).isPrefixOf (lowerChars cs) = false →
    runToks (w.map Rtok.lit1 ++ ts) [(p, cs)] = [] := by
  intro w
  induction w with
  | nil =>
    intro ts p cs h
    have htrue : (lowerChars ([] : List Char)).isPrefixOf (lowerChars cs) = true := by
      cases cs with
      | nil => rfl
      | cons d ds => rfl
    rw [htrue] at h
    exact Bool.noConfusion h
  | cons c w ih =>
    intro ts p cs h
    cases cs with
    | nil =>
      show runToks (Rtok.lit1 c :: (w.map Rtok.lit1 ++ ts)) [(p, [])] = []
      rw [runToks_cons_one]
      exact runToks_nil_states _
    | cons d ds =>
      show runToks (Rtok.lit1 c :: (w.map Rtok.lit1 ++ ts)) [(p, d :: ds)] = []
      rw [runToks_cons_one]
      by_cases hcd : d.toLower = c.toLower
      · have hstep : stepTok (Rtok.lit1 c) (p, d :: ds) = [(some d, ds)] := by
          show (if d.toLower = c.toLower then [(some d, ds)] else []) = _
          rw [if_pos hcd]
        rw [hstep]
        apply ih
        have h' : ((c.toLower == d.toLower) &&
            (lowerChars w).isPrefixOf (lowerChars ds)) = false := h
        have hbeq : (c.toLower == d.toLower) = true := beq_iff_eq.mpr hcd.symm
        rw [hbeq, Bool.true_and] at h'
        exact h'
      · have hstep : stepTok (Rtok.lit1 c) (p, d :: ds) = [] := by
          show (if d.toLower = c.toLower then [(some d, ds)] else []) = _
          rw [if_neg hcd]
        rw [hstep]
        exact runToks_nil_states _

/-- A `many0`/`many1` tail state after consuming a whole class-`f` segment. -/
theorem manyStates_consume (f : Char → Bool) : ∀ (xs : List Char)
    (p : Option Char) (r : List Char), (∀ ch ∈ xs, f ch = true) →
    (lastOpt p xs, r) ∈ manyStates f p (xs ++ r) := by
  intro xs
  induction xs with
  | nil =>
    intro p r _
    unfold manyStates
    exact List.mem_cons_self _ _
  | cons x xs ih =>
    intro p r hall
    have hx : f x = true := hall x (List.mem_cons_self x xs)
    show (lastOpt p (x :: xs), r) ∈ manyStates f p (x :: (xs ++ r))
    show (lastOpt p (x :: xs), r) ∈ (p, x :: (xs ++ r)) ::
      (if f x then manyStates f (some x) (xs ++ r) else [])
    apply List.mem_cons_of_mem
    rw [if_pos hx]
    exact ih (some x) r (fun ch hch => hall ch (List.mem_cons_of_mem x hch))

/-- `many1` consuming exactly one class character. -/
theorem mem_stepTok_many1_one {f : Char → Bool} {q : Option Char} {d : Char}
    {ds : List Char} (hd : f d = true) :
    (some d, ds) ∈ stepTok (Rtok.many1 f) (q, d :: ds) := by
  show (some d, ds) ∈ if f d then manyStates f (some d) ds else []
  rw [if_pos hd]
  unfold manyStates
  exact List.mem_cons_self _ _

/-- `many1` consuming one class character and then a whole class segment. -/
theorem mem_stepTok_many1_all {f : Char → Bool} {q : Option Char} {d : Char}
    {xs r : List Char} (hd : f d = true) (hall : ∀ ch ∈ xs, f ch = true) :
    (lastOpt (some d) xs, r) ∈ stepTok (Rtok.many1 f) (q, d :: (xs ++ r)) := by
  show (lastOpt (some d) xs, r) ∈ if f d then manyStates f (some d) (xs ++ r) else []
  rw [if_pos hd]
  exact manyStates_consume f xs (some d) r hall

/-- `lit1` consuming its (case-folded) character. -/
theorem mem_stepTok_lit1 {c d : Char} {q : Option Char} {ds : List Char}
    (h : d.toLower = c.toLower) :
    (some d, ds) ∈ stepTok (Rtok.lit1 c) (q, d :: ds) := by
  show (some d, ds) ∈ if d.toLower = c.toLower then [(some d, ds)] else []
  rw [if_pos h]
  exact List.mem_cons_self _ _

/-- `eol` accepts the end of the text. -/
theorem mem_stepTok_eol {q : Option Char} :
    (q, ([] : List Char)) ∈ stepTok Rtok.eol (q, []) := by
  show (q, ([] : List Char)) ∈ [((q : Option Char), ([] : List Char))]
  exact List.mem_cons_self _ _

/-! ## List and string helpers for the header-form proofs -/

/-- `isPrefixOf` ignores an appended tail when the candidate prefix fits in
the first part. -/
theorem isPrefixOf_append_left : ∀ (w a b : List Char), w.length ≤ a.length →
    (w.isPrefixOf (a ++ b)) = w.isPrefixOf a := by
  intro w
  induction w with
  | nil =>
    intro a b _
    cases a with
    | nil =>
      cases b with
      | nil => rfl
      | cons y ys => rfl
    | cons x xs => rfl
  | cons c w ih =>
    intro a b hlen
    cases a with
    | nil => simp at hlen
    | cons x xs =>
      show ((c == x) && w.isPrefixOf (xs ++ b)) = ((c == x) && w.isPrefixOf xs)
      rw [ih xs b (by simp [List.length_cons] at hlen; omega)]

/-- A failing case-folded prefix keeps failing after appending to the text. -/
theorem prefix_false_append {w nm : List Char} (suf : List Char)
    (hlen : w.length ≤ nm.length)
    (h : (lowerChars w).isPrefixOf (lowerChars nm) = false) :
    (lowerChars w).isPrefixOf (lowerChars (nm ++ suf)) = false := by
  have hmap : lowerChars (nm ++ suf) = lowerChars nm ++ lowerChars suf :=
    List.map_append _ _ _
  rw [hmap, isPrefixOf_append_left _ _ _ (by simpa [lowerChars] using hlen)]
  exact h

/-- Every digit is a `\d` character and not whitespace. -/
theorem digitChar_props : ∀ ch ∈ digitChars,
    Char.isDigit ch = true ∧ isPySpace ch = false := by decide

/-- Facts about every registered target section name: it is at least nine
characters long and no provider-note exclusion's first word is a case-folded
prefix of it. -/
theorem targetSections_facts : ∀ n ∈ targetSections,
    9 ≤ n.data.length ∧
    ∀ w ∈ (["ed", "emergency", "provider", "physician", "doctor",
        "attending", "resident", "nurse", "nursing"] : List String),
      w.data.length ≤ n.data.length ∧
      (lowerChars w.data).isPrefixOf (lowerChars n.data) = false := by decide

/-- A word sequence fails `re.match` when its first word is not a case-folded
prefix of the text. -/
theorem matchToks_wseq_false {w : String} (ws : List String) {t : List Char}
    (h : (lowerChars w.data).isPrefixOf (lowerChars t) = false) :
    matchToks (wseq (w :: ws)) t = false := by
  cases ws with
  | nil =>
    show matchToks (litS w) t = false
    unfold matchToks
    rw [show litS w = w.data.map Rtok.lit1 ++ [] from (List.append_nil _).symm,
      runToks_lit_nomatch w.data [] none t h]
    rfl
  | cons w2 ws =>
    show matchToks (litS w ++ [Rtok.many1 isPySpace] ++ wseq (w2 :: ws)) t = false
    unfold matchToks
    rw [List.append_assoc]
    show (!(runToks (w.data.map Rtok.lit1 ++
      ([Rtok.many1 isPySpace] ++ wseq (w2 :: ws))) [(none, t)]).isEmpty) = false
    rw [runToks_lit_nomatch w.data ([Rtok.many1 isPySpace] ++ wseq (w2 :: ws)) none t h]
    rfl

/-- The provider-note exclusion of `is_section_header` never fires on a text
none of whose exclusion first words prefix it. -/
theorem providerExclusion_false (t : List Char)
    (h : ∀ w ∈ (["ed", "emergency", "provider", "physician", "doctor",
        "attending", "resident", "nurse", "nursing"] : List String),
      (lowerChars w.data).isPrefixOf (lowerChars t) = false) :
    (sectionHeaderProviderExclusion.any fun ts => matchToks ts t) = false := by
  have h1 := h "ed" (by simp)
  have h2 := h "emergency" (by simp)
  have h3 := h "provider" (by simp)
  have h4 := h "physician" (by simp)
  have h5 := h "doctor" (by simp)
  have h6 := h "attending" (by simp)
  have h7 := h "resident" (by simp)
  have h8 := h "nurse" (by simp)
  have h9 := h "nursing" (by simp)
  simp only [sectionHeaderProviderExclusion, List.any_cons, List.any_nil,
    Bool.or_eq_false_iff]
  exact ⟨matchToks_wseq_false _ h1, matchToks_wseq_false _ h2,
    matchToks_wseq_false _ h3, matchToks_wseq_false _ h4,
    matchToks_wseq_false _ h5, matchToks_wseq_false _ h6,
    matchToks_wseq_false _ h7, matchToks_wseq_false _ h8,
    matchToks_wseq_false _ h9, trivial⟩

/-- `is_section_header` returns true (with no page/position context) for a
text of adequate length whose stripped value escapes the provider exclusions
and matches some section pattern. -/
theorem isSectionHeaderTrue_of (text stripped : String) (sz : ℚ) (fl : ℤ)
    (htrim : pyStrip text = stripped) (hlen : 4 ≤ stripped.length)
    (hprov : (sectionHeaderProviderExclusion.any fun ts =>
      matchToks ts stripped.data) = false)
    (hfind : ∃ np ∈ sectionPatterns, secPatMatches np.2 stripped.data = true) :
    (isSectionHeader text sz fl none none).1 = true := by
  unfold isSectionHeader
  rw [htrim]
  have h1 : (decide (stripped = "") || decide (stripped.length < 4)) = false := by
    rw [Bool.or_eq_false_iff]
    constructor
    · rw [decide_eq_false_iff_not]
      intro he
      rw [he] at hlen
      exact absurd hlen (by decide)
    · rw [decide_eq_false_iff_not]
      omega
  rw [h1, if_neg Bool.false_ne_true, hprov, if_neg Bool.false_ne_true,
    show adminGuard none none = false from rfl, if_neg Bool.false_ne_true]
  obtain ⟨np, hmem, hm⟩ := hfind
  rcases hf : sectionPatterns.find? fun q => secPatMatches q.2 stripped.data
    with _ | ⟨n, pat⟩
  · rw [List.find?_eq_none] at hf
    exact absurd hm (by simpa using hf np hmem)
  · rw [hf]

/-- `matchToks` after consuming a leading literal word. -/
theorem matchToks_lit_run (w : List Char) (ts : List Rtok) (r : List Char) :
    matchToks (w.map Rtok.lit1 ++ ts) (w ++ r) =
      !(runToks ts [(lastOpt none w, r)]).isEmpty := by
  unfold matchToks
  rw [runToks_lit_all w ts none r]

/-- C8: every registered target section name matches as a section header,
whether the block's trimmed text is exactly the name, the name followed by a
colon, or the name followed by a trailing date qualifier `as of <date>` — the
header patterns consume the entire trimmed line. -/
theorem c8_header_forms :
    ∀ name ∈ targetSections, ∀ (text : String) (sz : ℚ) (fl : ℤ) (a b c : String),
      (a.data ≠ [] ∧ ∀ ch ∈ a.data, ch ∈ digitChars) →
      (b.data ≠ [] ∧ ∀ ch ∈ b.data, ch ∈ digitChars) →
      (c.data ≠ [] ∧ ∀ ch ∈ c.data, ch ∈ digitChars) →
      (pyStrip text = name ∨ pyStrip text = name ++ ":" ∨
        pyStrip text = name ++ (" as of " ++ (a ++ ("/" ++ (b ++ ("/" ++ c)))))) →
      (isSectionHeader text sz fl none none).1 = true := by
  intro name hname text sz fl a b c ha hb hc hform
  obtain ⟨h9, hprovw⟩ := targetSections_facts name hname
  have hexcl : ∀ suf : List Char,
      (sectionHeaderProviderExclusion.any fun ts =>
        matchToks ts (name.data ++ suf)) = false := by
    intro suf
    apply providerExclusion_false
    intro w hw
    obtain ⟨hwlen, hwpre⟩ := hprovw w hw
    exact prefix_false_append suf hwlen hwpre
  have hmemOrig : (name, SecPat.orig name) ∈ sectionPatterns := by
    unfold sectionPatterns
    apply List.mem_append_left
    rw [List.mem_flatMap]
    exact ⟨name, hname, List.mem_cons_self _ _⟩
  have hmemColon : (name, SecPat.colon name) ∈ sectionPatterns := by
    unfold sectionPatterns
    apply List.mem_append_left
    rw [List.mem_flatMap]
    exact ⟨name, hname, List.mem_cons_of_mem _ (List.mem_cons_self _ _)⟩
  rcases hform with hform | hform | hform
  · apply isSectionHeaderTrue_of text name sz fl hform
    · show 4 ≤ name.data.length
      omega
    · have h := hexcl []
      rwa [List.append_nil] at h
    · refine ⟨(name, SecPat.orig name), hmemOrig, ?_⟩
      show (origAlts name).any (fun ts => matchToks ts name.data) = true
      apply List.any_eq_true.mpr
      refine ⟨litS name ++ [Rtok.many0 isPySpace, Rtok.eol],
        List.mem_cons_self _ _, ?_⟩
      have h := matchToks_lit_run name.data [Rtok.many0 isPySpace, Rtok.eol] []
      rw [List.append_nil] at h
      show matchToks (name.data.map Rtok.lit1 ++
        [Rtok.many0 isPySpace, Rtok.eol]) name.data = true
      rw [h]
      rfl
  · have hd2 : (name ++ ":").data = name.data ++ [':'] := by
      rw [String.data_append]
    apply isSectionHeaderTrue_of text (name ++ ":") sz fl hform
    · show 4 ≤ (name ++ ":").data.length
      rw [hd2, List.length_append]
      have h1 : List.length [':'] = 1 := rfl
      omega
    · rw [hd2]
      exact hexcl [':']
    · refine ⟨(name, SecPat.colon name), hmemColon, ?_⟩
      show (colonAlts name).any (fun ts => matchToks ts (name ++ ":").data) = true
      apply List.any_eq_true.mpr
      refine ⟨litS name ++ [Rtok.many0 isPySpace, Rtok.lit1 ':',
        Rtok.many0 isPySpace, Rtok.eol], List.mem_cons_self _ _, ?_⟩
      rw [hd2]
      show matchToks (name.data.map Rtok.lit1 ++ [Rtok.many0 isPySpace,
        Rtok.lit1 ':', Rtok.many0 isPySpace, Rtok.eol]) (name.data ++ [':']) = true
      rw [matchToks_lit_run name.data [Rtok.many0 isPySpace, Rtok.lit1 ':',
        Rtok.many0 isPySpace, Rtok.eol] [':']]
      rfl
  · have hd3 : (name ++ (" as of " ++ (a ++ ("/" ++ (b ++ ("/" ++ c)))))).data =
        name.data ++ (' ' :: 'a' :: 's' :: ' ' :: 'o' :: 'f' :: ' ' ::
          (a.data ++ ('/' :: (b.data ++ ('/' :: c.data))))) := by
      simp only [String.data_append]
      rfl
    obtain ⟨hane, haD⟩ := ha
    obtain ⟨hbne, hbD⟩ := hb
    obtain ⟨hcne, hcD⟩ := hc
    have haDig : ∀ ch ∈ a.data, Char.isDigit ch = true :=
      fun ch hch => (digitChar_props ch (haD ch hch)).1
    have hbDig : ∀ ch ∈ b.data, Char.isDigit ch = true :=
      fun ch hch => (digitChar_props ch (hbD ch hch)).1
    have hcDig : ∀ ch ∈ c.data, Char.isDigit ch = true :=
      fun ch hch => (digitChar_props ch (hcD ch hch)).1
    apply isSectionHeaderTrue_of text
      (name ++ (" as of " ++ (a ++ ("/" ++ (b ++ ("/" ++ c)))))) sz fl hform
    · show 4 ≤ (name ++ (" as of " ++ (a ++ ("/" ++ (b ++ ("/" ++ c)))))).data.length
      rw [hd3, List.length_append]
      omega
    · rw [hd3]
      exact hexcl _
    · refine ⟨(name, SecPat.orig name), hmemOrig, ?_⟩
      show (origAlts name).any (fun ts => matchToks ts
        (name ++ (" as of " ++ (a ++ ("/" ++ (b ++ ("/" ++ c)))))).data) = true
      apply List.any_eq_true.mpr
      refine ⟨litS name ++ [Rtok.many1 isPySpace] ++ litS "as" ++
        [Rtok.many1 isPySpace] ++ litS "of" ++ [Rtok.many1 isPySpace,
        Rtok.many1 Char.isDigit, Rtok.lit1 '/', Rtok.many1 Char.isDigit,
        Rtok.lit1 '/', Rtok.many1 Char.isDigit, Rtok.eol],
        List.mem_cons_of_mem _ (List.mem_cons_self _ _), ?_⟩
      have hassoc : litS name ++ [Rtok.many1 isPySpace] ++ litS "as" ++
          [Rtok.many1 isPySpace] ++ litS "of" ++ [Rtok.many1 isPySpace,
          Rtok.many1 Char.isDigit, Rtok.lit1 '/', Rtok.many1 Char.isDigit,
          Rtok.lit1 '/', Rtok.many1 Char.isDigit, Rtok.eol] =
          name.data.map Rtok.lit1 ++ [Rtok.many1 isPySpace, Rtok.lit1 'a',
          Rtok.lit1 's', Rtok.many1 isPySpace, Rtok.lit1 'o', Rtok.lit1 'f',
          Rtok.many1 isPySpace, Rtok.many1 Char.isDigit, Rtok.lit1 '/',
          Rtok.many1 Char.isDigit, Rtok.lit1 '/', Rtok.many1 Char.isDigit,
          Rtok.eol] := by
        simp [litS, List.append_assoc]
      show matchToks (litS name ++ [Rtok.many1 isPySpace] ++ litS "as" ++
        [Rtok.many1 isPySpace] ++ litS "of" ++ [Rtok.many1 isPySpace,
        Rtok.many1 Char.isDigit, Rtok.lit1 '/', Rtok.many1 Char.isDigit,
        Rtok.lit1 '/', Rtok.many1 Char.isDigit, Rtok.eol])
        (name ++ (" as of " ++ (a ++ ("/" ++ (b ++ ("/" ++ c)))))).data = true
      rw [hassoc, hd3, matchToks_lit_run]
      rcases hA : a.data with _ | ⟨a1, ta⟩
      · exact absurd hA hane
      rcases hB : b.data with _ | ⟨b1, tb⟩
      · exact absurd hB hbne
      rcases hC : c.data with _ | ⟨c1, tc⟩
      · exact absurd hC hcne
      have ha1d : Char.isDigit a1 = true :=
        haDig a1 (by rw [hA]; exact List.mem_cons_self _ _)
      have htad : ∀ ch ∈ ta, Char.isDigit ch = true :=
        fun ch hch => haDig ch (by rw [hA]; exact List.mem_cons_of_mem _ hch)
      have hb1d : Char.isDigit b1 = true :=
        hbDig b1 (by rw [hB]; exact List.mem_cons_self _ _)
      have htbd : ∀ ch ∈ tb, Char.isDigit ch = true :=
        fun ch hch => hbDig ch (by rw [hB]; exact List.mem_cons_of_mem _ hch)
      have hc1d : Char.isDigit c1 = true :=
        hcDig c1 (by rw [hC]; exact List.mem_cons_self _ _)
      have htcd : ∀ ch ∈ tc, Char.isDigit ch = true :=
        fun ch hch => hcDig ch (by rw [hC]; exact List.mem_cons_of_mem _ hch)
      have hmem : (lastOpt (some c1) tc, ([] : List Char)) ∈
          runToks [Rtok.many1 isPySpace, Rtok.lit1 'a', Rtok.lit1 's',
            Rtok.many1 isPySpace, Rtok.lit1 'o', Rtok.lit1 'f',
            Rtok.many1 isPySpace, Rtok.many1 Char.isDigit, Rtok.lit1 '/',
            Rtok.many1 Char.isDigit, Rtok.lit1 '/', Rtok.many1 Char.isDigit,
            Rtok.eol]
          [(lastOpt none name.data,
            ' ' :: 'a' :: 's' :: ' ' :: 'o' :: 'f' :: ' ' ::
              ((a1 :: ta) ++ ('/' :: ((b1 :: tb) ++ ('/' :: (c1 :: tc))))))] := by
        apply mem_runToks_cons (mem_stepTok_many1_one (by decide))
        apply mem_runToks_cons (mem_stepTok_lit1 (by decide))
        apply mem_runToks_cons (mem_stepTok_lit1 (by decide))
        apply mem_runToks_cons (mem_stepTok_many1_one (by decide))
        apply mem_runToks_cons (mem_stepTok_lit1 (by decide))
        apply mem_runToks_cons (mem_stepTok_lit1 (by decide))
        apply mem_runToks_cons (mem_stepTok_many1_one (by decide))
        apply mem_runToks_cons (mem_stepTok_many1_all ha1d htad)
        apply mem_runToks_cons (mem_stepTok_lit1 (by decide))
        apply mem_runToks_cons (mem_stepTok_many1_all hb1d htbd)
        apply mem_runToks_cons (mem_stepTok_lit1 (by decide))
        rw [show (c1 :: tc) = c1 :: (tc ++ []) from by rw [List.append_nil]]
        apply mem_runToks_cons (mem_stepTok_many1_all hc1d htcd)
        apply mem_runToks_cons mem_stepTok_eol
        exact List.mem_cons_self _ _
      rw [isEmpty_false_of_mem hmem]
      rfl

/-- C8 witness: the target section "Past History" matches as a header with
the `as of 1/2/2023` date qualifier, with the hypotheses discharged at that
concrete input. -/
theorem c8_header_forms_witness :
    ("Past History" ∈ targetSections ∧
      ("1".data ≠ [] ∧ ∀ ch ∈ "1".data, ch ∈ digitChars) ∧
      ("2".data ≠ [] ∧ ∀ ch ∈ "2".data, ch ∈ digitChars) ∧
      ("2023".data ≠ [] ∧ ∀ ch ∈ "2023".data, ch ∈ digitChars) ∧
      pyStrip "Past History as of 1/2/2023" =
        "Past History" ++ (" as of " ++ ("1" ++ ("/" ++ ("2" ++ ("/" ++ "2023")))))) ∧
    (isSectionHeader "Past History as of 1/2/2023" 11 0 none none).1 = true :=
  ⟨⟨by decide, ⟨by decide, by decide⟩, ⟨by decide, by decide⟩,
    ⟨by decide, by decide⟩, by decide⟩,
    c8_header_forms "Past History" (by decide) "Past History as of 1/2/2023" 11 0
      "1" "2" "2023" ⟨by decide, by decide⟩ ⟨by decide, by decide⟩
      ⟨by decide, by decide⟩ (Or.inr (Or.inr (by decide)))⟩

end PdfRedact
